import Mathlib

/-!
# MySensors ATSHA204 signing backend and RFM95 secure transport

A shallow embedding of `core/MySigningAtsha204.cpp` and of `transportReceive`
from `hal/transport/MyTransportRFM95.cpp`.

* Static buffers are maps from index to byte (`Buf`); the C array bounds are
  stated next to each field.
* The file-scope variables of the signing backend form `SigningState`; every
  function takes the state and returns the new one.
* The ATSHA204 driver, the millisecond clock, the radio and the EAX cipher are
  not part of the sources. They are oracles (`Hal`, `RadioHal`) over an abstract
  world that is threaded through every call, so a device may answer differently
  on every call and the clock may advance between two reads.
* Build-time constants that the sources do not define are fields of `Config`.
-/

namespace MySensors

/-! ## Memory -/

/-- A byte buffer: the byte stored at each index. -/
abbrev Buf := Nat → Nat

/-- The C call `memset(&dst[off], v, n)`. -/
def memset (dst : Buf) (off v n : Nat) : Buf :=
  fun i => if off ≤ i ∧ i < off + n then v else dst i

/-- The C call `memcpy(&dst[off], &src[srcOff], n)` for buffers that do not overlap. -/
def memcpy (dst : Buf) (off : Nat) (src : Buf) (srcOff n : Nat) : Buf :=
  fun i => if off ≤ i ∧ i < off + n then src (srcOff + (i - off)) else dst i

/-- The C assignment `dst[i] = v`. -/
def poke (dst : Buf) (i v : Nat) : Buf :=
  fun j => if j = i then v else dst j

/-- The `n` bytes `b[off], ..., b[off+n-1]`, as handed to a driver call. -/
def bytes (b : Buf) (off n : Nat) : List Nat :=
  (List.range n).map (fun i => b (off + i))

/-- A constant table as a buffer. -/
def ofList (l : List Nat) : Buf := fun i => l.getD i 0

/-- Conversion of a C `int` to `size_t` (16 bits wide on the AVR targets of the backend). -/
def toSizeT (x : Int) : Nat := (x % 65536).toNat

/-- Wrap of `unsigned long` arithmetic (32 bits). -/
def ULONG_MOD : Nat := 2 ^ 32

/-! ## Messages (`MyMessage.h`, MySensors 2.x wire layout) -/

/-- The message: seven one-byte header fields directly followed by the payload
array `data[MAX_PAYLOAD+1]`. `version_length` packs the protocol version (2 bits),
the signed flag (1 bit) and the payload length (5 bits). -/
structure MyMessage where
  last : Nat
  sender : Nat
  destination : Nat
  version_length : Nat
  command_ack_payload : Nat
  type : Nat
  sensor : Nat
  data : Buf

/-- Number of header bytes in front of `data`. -/
def HEADER_SIZE : Nat := 7

/-- The C macro `mGetLength(msg)`, which is `(uint8_t)BF_GET(version_length, 3, 5)`. -/
def mGetLength (msg : MyMessage) : Nat :=
  (msg.version_length >>> 3) &&& 31

/-- The C macro `mGetSigned(msg)`, which is `BF_GET(version_length, 2, 1)`. -/
def mGetSigned (msg : MyMessage) : Nat :=
  (msg.version_length >>> 2) &&& 1

/-- The C macro `mSetSigned(msg, s)`, which is `BF_SET(version_length, s, 2, 1)` stored
back into the byte. -/
def mSetSigned (msg : MyMessage) (s : Nat) : MyMessage :=
  { msg with version_length := (msg.version_length &&& 251) ||| ((s &&& 1) <<< 2) }

/-- The byte `msg.data[pos]`; a negative `pos` reaches back into the packed header. -/
def msgByte (msg : MyMessage) (pos : Int) : Nat :=
  if 0 ≤ pos then msg.data pos.toNat
  else if pos = -1 then msg.sensor
  else if pos = -2 then msg.type
  else if pos = -3 then msg.command_ack_payload
  else if pos = -4 then msg.version_length
  else if pos = -5 then msg.destination
  else if pos = -6 then msg.sender
  else if pos = -7 then msg.last
  else 0

/-- The C call `memcpy(dst, &msg.data[pos], n)`. -/
def memcpyFromMsg (dst : Buf) (msg : MyMessage) (pos : Int) (n : Nat) : Buf :=
  fun i => if i < n then msgByte msg (pos + (i : Int)) else dst i

/-- Modelled from the spec: `MyMessage::set(void*, uint8_t)` of `MyMessage.cpp`, which is
not among the sources ("transfer the first part of the nonce to the message"): the
payload length becomes `min(length, MAX_PAYLOAD)`, the payload type becomes custom
(6) and the bytes are copied to the start of `data`. -/
def MyMessage.set (maxPayload : Nat) (msg : MyMessage) (value : Buf) (length : Nat) :
    MyMessage :=
  let payloadLength := min length maxPayload
  { msg with
    version_length := (msg.version_length &&& 7) ||| ((payloadLength &&& 31) <<< 3)
    command_ack_payload := (msg.command_ack_payload &&& 31) ||| ((6 &&& 7) <<< 5)
    data := memcpy msg.data 0 value 0 payloadLength }

/-- Modelled from the spec: `MyMessage::getCustom()` of `MyMessage.cpp`, the payload bytes. -/
def MyMessage.getCustom (msg : MyMessage) : Buf := msg.data

/-! ## Configuration and hardware -/

/-- One entry of the table `MY_SIGNING_NODE_WHITELISTING`. -/
structure whitelist_entry_t where
  nodeId : Nat
  serial : List Nat

/-- Build-time constants and switches that the sources use but do not define. -/
structure Config where
  MAX_PAYLOAD : Nat
  MY_VERIFICATION_TIMEOUT_MS : Nat
  SHA_MSG_SIZE : Nat
  SHA204_BUFFER_POS_DATA : Nat
  SHA204_SUCCESS : Nat
  /-- The macro `DO_WHITELIST(node)`. -/
  DO_WHITELIST : Nat → Bool
  /-- The table `_signing_whitelist`; `none` when `MY_SIGNING_NODE_WHITELISTING` is
  not defined. -/
  MY_SIGNING_NODE_WHITELISTING : Option (List whitelist_entry_t)

/-- The identifier `SIGNING_IDENTIFIER` (HMAC-SHA256). -/
def SIGNING_IDENTIFIER : Nat := 1

/-- The ATSHA204 commands the backend issues through `atsha204_execute`, one per call
site; the data bytes handed to the device are part of the command. -/
inductive Sha204Cmd where
  | RANDOM
  | WRITE (data : List Nat)
  | NONCE (data : List Nat)
  | GENDIG
  | HMAC
  | SHA_INIT
  | SHA_CALC (data : List Nat)

/-- The hardware the backend talks to, over a world `σ` (device and clock). Every call
returns the world it leaves behind. `atsha204_execute` takes the response buffer and
returns the status together with the response buffer as the driver left it;
`atsha204_wakeup` does the same with the buffer it is given. The transmit scratch
buffer `_signing_tx_buffer` is only touched by the driver and lives in the world. -/
structure Hal (σ : Type) where
  hwMillis : σ → Nat × σ
  atsha204_wakeup : σ → Buf → Nat × Buf × σ
  atsha204_idle : σ → σ
  atsha204_sleep : σ → σ
  atsha204_execute : σ → Sha204Cmd → Buf → Nat × Buf × σ

/-- The file-scope variables of `MySigningAtsha204.cpp`. -/
structure SigningState where
  _signing_timestamp : Nat
  _signing_verification_ongoing : Bool
  /-- `uint8_t[32+9+1]` -/
  _signing_verifying_nonce : Buf
  /-- `uint8_t[32+9+1]` -/
  _signing_signing_nonce : Buf
  /-- `uint8_t[SHA_MSG_SIZE]` -/
  _signing_temp_message : Buf
  /-- `uint8_t[SHA204_RSP_SIZE_MAX]`; `_signing_hmac` points at index
  `SHA204_BUFFER_POS_DATA` of it. -/
  _signing_rx_buffer : Buf
  /-- `uint8_t[9]` -/
  _signing_node_serial_info : Buf
  init_ok : Bool

/-- The 32 bytes at `_signing_hmac`. -/
def hmacBytes (cfg : Config) (st : SigningState) : List Nat :=
  bytes st._signing_rx_buffer cfg.SHA204_BUFFER_POS_DATA 32

/-- The buffer the pointer `nonce` of `signerCalculateSignature` refers to. -/
def nonceBuf (st : SigningState) (signing : Bool) : Buf :=
  if signing then st._signing_signing_nonce else st._signing_verifying_nonce

/-- Store through the pointer `nonce` of `signerCalculateSignature`. -/
def setNonceBuf (st : SigningState) (signing : Bool) (b : Buf) : SigningState :=
  if signing then { st with _signing_signing_nonce := b }
  else { st with _signing_verifying_nonce := b }

variable {σ : Type}

/-! ## The signing backend -/

/-- The function `signerAtsha204AHmac`: four device commands whose statuses are
discarded; the HMAC is whatever the last one leaves in the response buffer. -/
def signerAtsha204AHmac (hal : Hal σ) (st : SigningState) (w : σ) (nonce data : Buf) :
    SigningState × σ :=
  let r1 := hal.atsha204_execute w (.WRITE (bytes data 0 32)) st._signing_rx_buffer
  let r2 := hal.atsha204_execute r1.2.2 (.NONCE (bytes nonce 0 32)) r1.2.1
  let r3 := hal.atsha204_execute r2.2.2 .GENDIG r2.2.1
  let r4 := hal.atsha204_execute r3.2.2 .HMAC r3.2.1
  ({ st with _signing_rx_buffer := r4.2.1 }, r4.2.2)

/-- The function `signerSha256`: pads one block in `_signing_temp_message` and runs
the device's SHA commands, statuses discarded. -/
def signerSha256 (cfg : Config) (hal : Hal σ) (st : SigningState) (w : σ) (data : Buf)
    (sz : Nat) : SigningState × σ :=
  let r1 := hal.atsha204_execute w .SHA_INIT st._signing_rx_buffer
  let t0 := memset st._signing_temp_message 0 0 cfg.SHA_MSG_SIZE
  let t1 := memcpy t0 0 data 0 sz
  let t2 := poke t1 sz 128
  let t3 := poke t2 (cfg.SHA_MSG_SIZE - 2) ((sz >>> 5) % 256)
  let t4 := poke t3 (cfg.SHA_MSG_SIZE - 1) ((sz <<< 3) % 256)
  let r2 := hal.atsha204_execute r1.2.2 (.SHA_CALC (bytes t4 0 cfg.SHA_MSG_SIZE)) r1.2.1
  ({ st with _signing_temp_message := t4, _signing_rx_buffer := r2.2.1 }, r2.2.2)

/-- One pass of the loop body of `signerCalculateSignature`, up to and including the
purge of the nonce: wake the device, zero the first 32 bytes of the scratch
message, copy the next bytes of the message into it, compute the HMAC with the
current nonce, overwrite the nonce with the sentinel. -/
def signaturePass (hal : Hal σ) (msg : MyMessage) (signing : Bool) (bytes_to_include : Nat)
    (current_pos : Int) (st : SigningState) (w : σ) : SigningState × σ :=
  let wk := hal.atsha204_wakeup w st._signing_temp_message
  let t0 := memset wk.2.1 0 0 32
  let t1 := memcpyFromMsg t0 msg current_pos bytes_to_include
  let st1 := { st with _signing_temp_message := t1 }
  let h := signerAtsha204AHmac hal st1 wk.2.2 (nonceBuf st1 signing) st1._signing_temp_message
  (setNonceBuf h.1 signing (memset (nonceBuf h.1 signing) 0 170 32), h.2)

/-- The end of the loop body when another pass follows: the HMAC becomes the nonce. -/
def carryHmac (cfg : Config) (st : SigningState) (signing : Bool) : SigningState :=
  setNonceBuf st signing
    (memcpy (nonceBuf st signing) 0 st._signing_rx_buffer cfg.SHA204_BUFFER_POS_DATA 32)

/-- The `while (bytes_left)` loop of `signerCalculateSignature`. Every pass removes at
least one byte, so `fuel = bytes_left` passes are enough. -/
def signerCalculateSignatureLoop (cfg : Config) (hal : Hal σ) (msg : MyMessage)
    (signing : Bool) : Nat → Nat → Int → SigningState → σ → SigningState × σ
  | 0, _, _, st, w => (st, w)
  | fuel + 1, bytes_left, current_pos, st, w =>
    if bytes_left = 0 then (st, w)
    else
      let bytes_to_include := min bytes_left 32
      let p := signaturePass hal msg signing bytes_to_include current_pos st w
      let bytes_left' := bytes_left - bytes_to_include
      let current_pos' := current_pos + (bytes_to_include : Int)
      if bytes_left' > 0 then
        signerCalculateSignatureLoop cfg hal msg signing fuel bytes_left' current_pos'
          (carryHmac cfg p.1 signing) (hal.atsha204_idle p.2)
      else
        signerCalculateSignatureLoop cfg hal msg signing fuel bytes_left' current_pos' p.1 p.2

/-- The function `signerCalculateSignature`. The payload length has 5 bits, so
`bytes_left` is at most 37 and neither the `uint16_t` counter nor the `int16_t`
position wraps. -/
def signerCalculateSignature (cfg : Config) (hal : Hal σ) (st : SigningState) (w : σ)
    (msg : MyMessage) (signing : Bool) : SigningState × σ :=
  let bytes_left := mGetLength msg + HEADER_SIZE - 1
  let current_pos : Int := 1 - (HEADER_SIZE : Int)
  signerCalculateSignatureLoop cfg hal msg signing bytes_left bytes_left current_pos st w

/-- Purge of both nonces, as in the timeout branch of `signerAtsha204CheckTimer`. -/
def purgeNonces (st : SigningState) : SigningState :=
  { st with
    _signing_signing_nonce := memset st._signing_signing_nonce 0 170 32
    _signing_verifying_nonce := memset st._signing_verifying_nonce 0 170 32
    _signing_verification_ongoing := false }

/-- The function `signerAtsha204CheckTimer`. The clock is read once for each operand
of `||`, the second read only when the first test is false. -/
def signerAtsha204CheckTimer (cfg : Config) (hal : Hal σ) (st : SigningState) (w : σ) :
    Bool × SigningState × σ :=
  if !st.init_ok then (false, st, w)
  else if st._signing_verification_ongoing then
    let t1 := hal.hwMillis w
    if t1.1 < st._signing_timestamp then (false, purgeNonces st, t1.2)
    else
      let t2 := hal.hwMillis t1.2
      if t2.1 > (st._signing_timestamp + cfg.MY_VERIFICATION_TIMEOUT_MS) % ULONG_MOD then
        (false, purgeNonces st, t2.2)
      else (true, st, t2.2)
  else (true, st, w)

/-- Modelled from the spec: `signerCheckTimer` of `MySigning.cpp`, which is not among
the sources ("checks timeout via the Nonce Manager"): it forwards to the backend. -/
def signerCheckTimer (cfg : Config) (hal : Hal σ) (st : SigningState) (w : σ) :
    Bool × SigningState × σ :=
  signerAtsha204CheckTimer cfg hal st w

/-- Modelled from the spec: `signerMemcmp` of `MySigning.cpp`, which is not among the
sources ("a constant-time-intent byte comparison", "Rejected on any mismatch"):
`0` when the `sz` bytes agree, `-1` otherwise. -/
def signerMemcmp (a : Buf) (aOff : Nat) (b : Buf) (bOff : Nat) (sz : Nat) : Int :=
  if (List.range sz).all (fun i => a (aOff + i) == b (bOff + i)) then 0 else -1

/-- The whitening loop of `signerAtsha204GetNonce`: byte `i` of the random response
is XORed with the low byte of a fresh clock reading. -/
def whitenLoop (cfg : Config) (hal : Hal σ) (rx : Buf) : Nat → Nat → Buf → σ → Buf × σ
  | 0, _, nonce, w => (nonce, w)
  | n + 1, i, nonce, w =>
    let t := hal.hwMillis w
    whitenLoop cfg hal rx n (i + 1)
      (poke nonce i (rx (cfg.SHA204_BUFFER_POS_DATA + i) ^^^ (t.1 &&& 255))) t.2

/-- The function `signerAtsha204GetNonce`. -/
def signerAtsha204GetNonce (cfg : Config) (hal : Hal σ) (st : SigningState) (w : σ)
    (msg : MyMessage) : Bool × SigningState × σ × MyMessage :=
  if !st.init_ok then (false, st, w, msg)
  else
    let wk := hal.atsha204_wakeup w st._signing_temp_message
    let r := hal.atsha204_execute wk.2.2 .RANDOM st._signing_rx_buffer
    let st1 := { st with _signing_temp_message := wk.2.1, _signing_rx_buffer := r.2.1 }
    if r.1 ≠ cfg.SHA204_SUCCESS then (false, st1, r.2.2, msg)
    else
      let wl := whitenLoop cfg hal st1._signing_rx_buffer 32 0 st1._signing_verifying_nonce r.2.2
      let st2 := { st1 with _signing_verifying_nonce := wl.1 }
      let s := signerSha256 cfg hal st2 wl.2 st2._signing_verifying_nonce 32
      let n3 := memcpy s.fst._signing_verifying_nonce 0 s.fst._signing_rx_buffer
        cfg.SHA204_BUFFER_POS_DATA (min cfg.MAX_PAYLOAD 32)
      let st3 := { s.fst with _signing_verifying_nonce := n3 }
      let w3 := hal.atsha204_idle s.2
      let n4 := memset st3._signing_verifying_nonce cfg.MAX_PAYLOAD 170 (32 - cfg.MAX_PAYLOAD)
      let st4 := if cfg.MAX_PAYLOAD < 32 then { st3 with _signing_verifying_nonce := n4 } else st3
      let msg' := MyMessage.set cfg.MAX_PAYLOAD msg st4._signing_verifying_nonce
        (min cfg.MAX_PAYLOAD 32)
      let t1 := hal.hwMillis w3
      let t2 := hal.hwMillis t1.2
      let ts := if (t1.1 + cfg.MY_VERIFICATION_TIMEOUT_MS) % ULONG_MOD < t2.1 then 0 else t1.1
      (true, { st4 with _signing_verification_ongoing := true, _signing_timestamp := ts },
        t2.2, msg')

/-- The function `signerAtsha204PutNonce`. -/
def signerAtsha204PutNonce (cfg : Config) (st : SigningState) (msg : MyMessage) :
    SigningState :=
  if !st.init_ok then st
  else
    let n1 := memcpy st._signing_signing_nonce 0 msg.getCustom 0 (min cfg.MAX_PAYLOAD 32)
    if cfg.MAX_PAYLOAD < 32 then
      { st with _signing_signing_nonce := memset n1 cfg.MAX_PAYLOAD 170 (32 - cfg.MAX_PAYLOAD) }
    else { st with _signing_signing_nonce := n1 }

/-- Salting of the signature held at `_signing_hmac`: the nonce buffer is reused for
HMAC, sender id and serial, and hashed in place. -/
def saltSignature (cfg : Config) (hal : Hal σ) (st : SigningState) (w : σ) (signing : Bool)
    (sender : Nat) (serial : Buf) : SigningState × σ :=
  let n1 := memcpy (nonceBuf st signing) 0 st._signing_rx_buffer cfg.SHA204_BUFFER_POS_DATA 32
  let n2 := poke n1 32 sender
  let n3 := memcpy n2 33 serial 0 9
  let st1 := setNonceBuf st signing n3
  signerSha256 cfg hal st1 w (nonceBuf st1 signing) (32 + 1 + 9)

/-- Number of signature bytes carried by a message of payload length `len`:
`min(MAX_PAYLOAD-mGetLength(msg), 32)` in `int`, passed as a `size_t`. -/
def signatureSize (cfg : Config) (len : Nat) : Nat :=
  toSizeT (min ((cfg.MAX_PAYLOAD : Int) - (len : Int)) 32)

/-- The function `signerAtsha204SignMsg`. -/
def signerAtsha204SignMsg (cfg : Config) (hal : Hal σ) (st : SigningState) (w : σ)
    (msg : MyMessage) : Bool × SigningState × σ × MyMessage :=
  if (mGetLength msg : Int) > (cfg.MAX_PAYLOAD : Int) - 2 then (false, st, w, msg)
  else
    let msg1 := mSetSigned msg 1
    let c := signerCalculateSignature cfg hal st w msg1 true
    let s :=
      if cfg.DO_WHITELIST msg1.destination then
        saltSignature cfg hal c.1 c.2 true msg1.sender c.fst._signing_node_serial_info
      else c
    let w2 := hal.atsha204_sleep s.2
    let rx2 := poke s.fst._signing_rx_buffer cfg.SHA204_BUFFER_POS_DATA SIGNING_IDENTIFIER
    let st2 := { s.fst with _signing_rx_buffer := rx2 }
    let d2 := memcpy msg1.data (mGetLength msg1) st2._signing_rx_buffer
      cfg.SHA204_BUFFER_POS_DATA (signatureSize cfg (mGetLength msg1))
    let msg2 := { msg1 with data := d2 }
    (true, st2, w2, msg2)

/-- The whitelist loop of `signerAtsha204VerifyMsg`: the first entry whose `nodeId`
is the sender. -/
def findWhitelistEntry (wl : List whitelist_entry_t) (sender : Nat) :
    Option whitelist_entry_t :=
  wl.find? (fun e => e.nodeId == sender)

/-- The function `signerAtsha204VerifyMsg`. -/
def signerAtsha204VerifyMsg (cfg : Config) (hal : Hal σ) (st : SigningState) (w : σ)
    (msg : MyMessage) : Bool × SigningState × σ :=
  if !st._signing_verification_ongoing then (false, st, w)
  else
    let t := signerCheckTimer cfg hal st w
    if !t.1 then (false, t.2.1, t.2.2)
    else
      let st1 := { t.snd.fst with _signing_verification_ongoing := false }
      if msgByte msg (mGetLength msg) ≠ SIGNING_IDENTIFIER then (false, st1, t.2.2)
      else
        let c := signerCalculateSignature cfg hal st1 t.2.2 msg false
        let compare (s : SigningState × σ) : Bool × SigningState × σ :=
          let w2 := hal.atsha204_sleep s.2
          let rx2 := poke s.fst._signing_rx_buffer cfg.SHA204_BUFFER_POS_DATA SIGNING_IDENTIFIER
          let st2 := { s.fst with _signing_rx_buffer := rx2 }
          if signerMemcmp msg.data (mGetLength msg) st2._signing_rx_buffer
              cfg.SHA204_BUFFER_POS_DATA (signatureSize cfg (mGetLength msg)) ≠ 0 then
            (false, st2, w2)
          else (true, st2, w2)
        match cfg.MY_SIGNING_NODE_WHITELISTING with
        | none => compare c
        | some wl =>
          match findWhitelistEntry wl msg.sender with
          | some e => compare (saltSignature cfg hal c.1 c.2 false msg.sender (ofList e.serial))
          | none => (false, c.1, hal.atsha204_sleep c.2)

/-! ## Secure frame receive (`MyTransportRFM95.cpp`, encryption enabled) -/

/-- The constant `IV_SIZE`. -/
def IV_SIZE : Nat := 16

/-- The constant `TAG_SIZE`. -/
def TAG_SIZE : Nat := 16

/-- The radio driver and the `EAX<AES256>` object `eax`, over a world `ρ` holding the
radio and the cipher state. `RFM95_recv` and `eax_decrypt` take the buffer they write
to and return it as they left it. -/
structure RadioHal (ρ : Type) where
  RFM95_recv : ρ → Buf → Nat → Nat × Buf × ρ
  RFM95_getAddress : ρ → Nat
  eax_setIV : ρ → List Nat → ρ
  eax_addAuthData : ρ → List Nat → ρ
  eax_decrypt : ρ → Buf → List Nat → Buf × ρ
  eax_checkTag : ρ → List Nat → Bool × ρ

/-- Number of bytes `transportReceive` hands to `eax.decrypt` for a frame of `len`
bytes: `len - IV_SIZE - TAG_SIZE` computed in `int` and passed as a `size_t`. For a
frame shorter than IV and tag together the difference is negative and converts to
a length of 65504 or more. -/
def decryptLength (len : Nat) : Nat :=
  toSizeT ((len : Int) - (IV_SIZE : Int) - (TAG_SIZE : Int))

/-- The reads of `transportReceive` stay inside `eaxBuffer[64]`: the
`decryptLength len` bytes behind the IV given to `eax.decrypt`, and the tag at
`&eaxBuffer[len - TAG_SIZE]` given to `eax.checkTag`. -/
def frameInBounds (len : Nat) : Bool :=
  decide (IV_SIZE + decryptLength len ≤ 64 ∧ TAG_SIZE ≤ len ∧ len ≤ 64)

/-- What `transportReceive` has computed when `eax.checkTag` returns. -/
structure ReceiveStep (ρ : Type) where
  len : Nat
  eaxBuffer : Buf
  data : Buf
  tagOk : Bool
  world : ρ

variable {ρ : Type}

/-- The part of `transportReceive` up to and including `eax.checkTag`: the frame is
received into `eaxBuffer`, and the ciphertext is decrypted into the caller's
buffer `data` before the tag is checked. The result is `none` when the frame length
takes the reads outside `eaxBuffer` (`frameInBounds` is false): the C code then
runs `eax.decrypt` over memory behind `eaxBuffer` and behind the caller's buffer, and
its behaviour is undefined. The caller's buffer is taken to have room for the
`len - 32` bytes of an in-bounds frame. -/
def transportReceiveCheck (hal : RadioHal ρ) (eaxBuffer : Buf) (r : ρ) (data : Buf) :
    Option (ReceiveStep ρ) :=
  let rc := hal.RFM95_recv r eaxBuffer 64
  let len := rc.1 % 256
  let r1 := hal.eax_setIV rc.2.2 (bytes rc.2.1 0 IV_SIZE)
  let addressing := [hal.RFM95_getAddress r1]
  let r2 := hal.eax_addAuthData r1 addressing
  if frameInBounds len then
    let d := hal.eax_decrypt r2 data (bytes rc.2.1 IV_SIZE (decryptLength len))
    let c := hal.eax_checkTag d.2 (bytes rc.2.1 (len - TAG_SIZE) TAG_SIZE)
    some ⟨len, rc.2.1, d.1, c.1, c.2⟩
  else none

/-- The function `transportReceive`: returned length, caller's buffer, `eaxBuffer` and
world after the call; `none` when the behaviour is undefined (see
`transportReceiveCheck`). The line printed on the serial device is not modelled. -/
def transportReceive (hal : RadioHal ρ) (eaxBuffer : Buf) (r : ρ) (data : Buf) :
    Option (Nat × Buf × Buf × ρ) :=
  (transportReceiveCheck hal eaxBuffer r data).map fun s =>
    if !s.tagOk then (0, s.data, memset s.eaxBuffer 0 255 64, s.world)
    else (s.len, s.data, s.eaxBuffer, s.world)

/-! ## Specification-side definitions -/

/-- The signed region in the words of the specification: the header without its first
byte, followed by the payload. -/
def signedRegion (msg : MyMessage) : List Nat :=
  [msg.sender, msg.destination, msg.version_length, msg.command_ack_payload, msg.type,
    msg.sensor] ++ bytes msg.data 0 (mGetLength msg)

/-- Zero padding of a chunk to 32 bytes. -/
def pad32 (l : List Nat) : List Nat := l ++ List.replicate (32 - l.length) 0

/-- Consecutive 32-byte chunks of a region, the last one zero-padded. -/
def chunks32 (r : List Nat) : List (List Nat) :=
  (List.range ((r.length + 31) / 32)).map (fun k => pad32 ((r.drop (32 * k)).take 32))

/-- The HMAC chain in the words of the specification: fold `h := hmac(h, chunk)` over
the chunks of the signed region, starting from the nonce. -/
def specSignature (hmac : List Nat → List Nat → List Nat) (nonce : List Nat)
    (msg : MyMessage) : List Nat :=
  (chunks32 (signedRegion msg)).foldl hmac nonce

/-- The device computes the HMAC function `F`: from every state of the device and of
the response buffer, `signerAtsha204AHmac` leaves `F nonce data` at `_signing_hmac`. -/
def HmacIs (cfg : Config) (hal : Hal σ) (F : List Nat → List Nat → List Nat) : Prop :=
  ∀ (st : SigningState) (w : σ) (nonce data : Buf),
    hmacBytes cfg (signerAtsha204AHmac hal st w nonce data).1
      = F (bytes nonce 0 32) (bytes data 0 32)

/-- The device computes the digest function `G`: from every state, `signerSha256` of
`sz` bytes leaves `G` of those bytes at `_signing_hmac`. -/
def ShaIs (cfg : Config) (hal : Hal σ) (G : List Nat → List Nat) : Prop :=
  ∀ (st : SigningState) (w : σ) (data : Buf) (sz : Nat),
    hmacBytes cfg (signerSha256 cfg hal st w data sz).1 = G (bytes data 0 sz)

/-- The verification is inside its time window as `signerAtsha204CheckTimer` reads the
clock: the first reading is not before the issue time and the second is not past
the issue time plus the timeout. -/
def NotTimedOut (cfg : Config) (hal : Hal σ) (st : SigningState) (w : σ) : Prop :=
  ¬ (hal.hwMillis w).1 < st._signing_timestamp ∧
  ¬ (hal.hwMillis (hal.hwMillis w).2).1 >
      (st._signing_timestamp + cfg.MY_VERIFICATION_TIMEOUT_MS) % ULONG_MOD

/-- The state in which `signerAtsha204SignMsg` holds the signature of the flagged
message at `_signing_hmac`, before the identifier byte is written: the HMAC chain,
salted when `DO_WHITELIST(msg.destination)`. -/
def signedHmac (cfg : Config) (hal : Hal σ) (st : SigningState) (w : σ) (msg : MyMessage) :
    SigningState × σ :=
  let c := signerCalculateSignature cfg hal st w msg true
  if cfg.DO_WHITELIST msg.destination then
    saltSignature cfg hal c.1 c.2 true msg.sender c.1._signing_node_serial_info
  else c

/-- The state in which `signerAtsha204VerifyMsg` holds the expected signature at
`_signing_hmac`, before the identifier byte is written; `none` when the build has a
whitelist and the sender is not in it. -/
def expectedHmac (cfg : Config) (hal : Hal σ) (st : SigningState) (w : σ) (msg : MyMessage) :
    Option (SigningState × σ) :=
  let c := signerCalculateSignature cfg hal st w msg false
  match cfg.MY_SIGNING_NODE_WHITELISTING with
  | none => some c
  | some wl =>
    match findWhitelistEntry wl msg.sender with
    | some e => some (saltSignature cfg hal c.1 c.2 false msg.sender (ofList e.serial))
    | none => none

/-- The second state has the same timestamp, verification flag, initialisation flag and
serial as the first. -/
def SameControl (st st' : SigningState) : Prop :=
  st'._signing_verification_ongoing = st._signing_verification_ongoing ∧
  st'._signing_timestamp = st._signing_timestamp ∧
  st'.init_ok = st.init_ok ∧
  st'._signing_node_serial_info = st._signing_node_serial_info

/-- Status of the RANDOM command that `signerAtsha204GetNonce` issues from state `st` and
world `w`. -/
def randomStatus (hal : Hal σ) (st : SigningState) (w : σ) : Nat :=
  (hal.atsha204_execute (hal.atsha204_wakeup w st._signing_temp_message).2.2 .RANDOM
    st._signing_rx_buffer).1

/-- State and world of `signerAtsha204GetNonce` at the return of its `signerSha256` call:
the random response has been whitened into the verifying nonce and hashed. -/
def nonceDigest (cfg : Config) (hal : Hal σ) (st : SigningState) (w : σ) : SigningState × σ :=
  let wk := hal.atsha204_wakeup w st._signing_temp_message
  let r := hal.atsha204_execute wk.2.2 .RANDOM st._signing_rx_buffer
  let st1 := { st with _signing_temp_message := wk.2.1, _signing_rx_buffer := r.2.1 }
  let wl := whitenLoop cfg hal st1._signing_rx_buffer 32 0 st1._signing_verifying_nonce r.2.2
  let st2 := { st1 with _signing_verifying_nonce := wl.1 }
  signerSha256 cfg hal st2 wl.2 st2._signing_verifying_nonce 32

/-- The verifying nonce that `signerAtsha204GetNonce` stores: the first
`min(MAX_PAYLOAD, 32)` digest bytes, and the sentinel up to index 31 when
`MAX_PAYLOAD < 32`. -/
def issuedNonce (cfg : Config) (hal : Hal σ) (st : SigningState) (w : σ) : Buf :=
  let s := nonceDigest cfg hal st w
  let n3 := memcpy s.fst._signing_verifying_nonce 0 s.fst._signing_rx_buffer
    cfg.SHA204_BUFFER_POS_DATA (min cfg.MAX_PAYLOAD 32)
  if cfg.MAX_PAYLOAD < 32 then memset n3 cfg.MAX_PAYLOAD 170 (32 - cfg.MAX_PAYLOAD) else n3

/-- The two clock readings `signerAtsha204GetNonce` takes for the timestamp and for the
wrap test. -/
def issueClock (cfg : Config) (hal : Hal σ) (st : SigningState) (w : σ) : Nat × Nat :=
  let t1 := hal.hwMillis (hal.atsha204_idle (nonceDigest cfg hal st w).2)
  (t1.1, (hal.hwMillis t1.2).1)

/-! ## A small concrete device, used to instantiate the statements -/

/-- World of the example device: the clock value, the data slot last written, the
nonce last loaded. -/
structure ToyWorld where
  clock : Nat
  slot : List Nat
  tempKey : List Nat

/-- The keyed function of the example device, byte by byte. -/
def toyMac (nonce data : List Nat) : List Nat :=
  (List.range 32).map (fun i => (nonce.getD i 0 + 3 * data.getD i 0 + 1) % 256)

/-- The digest of the example device, byte by byte over the padded block. -/
def toyDigest (block : List Nat) : List Nat :=
  (List.range 32).map (fun i => (block.getD i 0 + 5 * block.getD (i + 10) 0 + 7) % 256)

/-- A response of 32 data bytes written behind the count byte of the response buffer. -/
def respond (rx : Buf) (l : List Nat) : Buf :=
  fun i => if 1 ≤ i ∧ i < 33 then l.getD (i - 1) 0 else rx i

/-- An example device on which every command succeeds with status 0. The clock does
not move while a function runs. -/
def toyHal : Hal ToyWorld where
  hwMillis w := (w.clock, w)
  atsha204_wakeup w b := (0, b, w)
  atsha204_idle w := w
  atsha204_sleep w := w
  atsha204_execute w cmd rx :=
    match cmd with
    | .RANDOM => (0, respond rx ((List.range 32).map (fun i => (37 * i + 11) % 256)), w)
    | .WRITE d => (0, rx, { w with slot := d })
    | .NONCE d => (0, rx, { w with tempKey := d })
    | .GENDIG => (0, rx, w)
    | .HMAC => (0, respond rx (toyMac w.tempKey w.slot), w)
    | .SHA_INIT => (0, rx, w)
    | .SHA_CALC d => (0, respond rx (toyDigest d), w)

/-- An example device that is not answering: every command reports the
communication failure status and leaves the response buffer as it was. -/
def deadHal : Hal ToyWorld where
  hwMillis w := (w.clock, w)
  atsha204_wakeup w b := (231, b, w)
  atsha204_idle w := w
  atsha204_sleep w := w
  atsha204_execute w _ rx := (240, rx, w)

/-- Example build: 25-byte payloads, 5 s verification timeout, no whitelisting. -/
def toyCfg : Config where
  MAX_PAYLOAD := 25
  MY_VERIFICATION_TIMEOUT_MS := 5000
  SHA_MSG_SIZE := 64
  SHA204_BUFFER_POS_DATA := 1
  SHA204_SUCCESS := 0
  DO_WHITELIST := fun _ => false
  MY_SIGNING_NODE_WHITELISTING := none

/-- Example build of a verifier with a whitelist holding node 7 only. -/
def toyCfgWhitelist : Config :=
  { toyCfg with
    MY_SIGNING_NODE_WHITELISTING := some [⟨7, [1, 2, 3, 4, 5, 6, 7, 8, 9]⟩] }

/-- The all-zero buffer. -/
def zeroBuf : Buf := fun _ => 0

/-- An initialised backend with a verification issued at time `ts`. -/
def toyState (ts : Nat) (ongoing : Bool) : SigningState where
  _signing_timestamp := ts
  _signing_verification_ongoing := ongoing
  _signing_verifying_nonce := fun i => if i < 32 then (i + 1) % 256 else 0
  _signing_signing_nonce := fun i => if i < 32 then (i + 1) % 256 else 0
  _signing_temp_message := zeroBuf
  _signing_rx_buffer := zeroBuf
  _signing_node_serial_info := ofList [1, 2, 3, 4, 5, 6, 7, 8, 9]
  init_ok := true

/-- The world of the example device at clock value `now`. -/
def toyWorld (now : Nat) : ToyWorld := ⟨now, [], []⟩

/-- An example message from node 3 to node 0 with the two payload bytes 20, 21. -/
def toyMsg : MyMessage where
  last := 3
  sender := 3
  destination := 0
  version_length := 18
  command_ack_payload := 1
  type := 0
  sensor := 5
  data := ofList [20, 21]

/-- The example verifier issues a nonce at clock value 1000. -/
def toyNonceRun : Bool × SigningState × ToyWorld × MyMessage :=
  signerAtsha204GetNonce toyCfg toyHal (toyState 0 false) (toyWorld 1000) toyMsg

/-- The example signer stores the nonce it received and signs `toyMsg`. -/
def toySignedMsg : MyMessage :=
  (signerAtsha204SignMsg toyCfg toyHal
    (signerAtsha204PutNonce toyCfg (toyState 0 false) toyNonceRun.2.2.2)
    (toyWorld 1000) toyMsg).2.2.2

/-- An example message whose signed region (6 + 30 bytes) takes two HMAC passes. -/
def toyLongMsg : MyMessage where
  last := 9
  sender := 3
  destination := 0
  version_length := 242
  command_ack_payload := 1
  type := 0
  sensor := 5
  data := fun i => (7 * i + 2) % 256

/-- The bytes `msg.data[pos], ..., msg.data[pos+n-1]` that the signature loop still has
to process when it stands at `current_pos = pos` with `bytes_left = n`. -/
def regionFrom (msg : MyMessage) (pos : Int) (n : Nat) : List Nat :=
  (List.range n).map (fun (i : Nat) => msgByte msg (pos + (i : Int)))

/-- The digest function of the example device on unpadded input: what `signerSha256`
leaves at `_signing_hmac` for these bytes. -/
def toySha (l : List Nat) : List Nat :=
  hmacBytes toyCfg
    (signerSha256 toyCfg toyHal (toyState 0 false) (toyWorld 0) (ofList l) l.length).1

/-- Example build in which signer and verifier salt: every destination asks for
whitelisting and the table knows node 3 with the serial of `toyState`. -/
def toyCfgSalted : Config :=
  { toyCfg with
    DO_WHITELIST := fun _ => true
    MY_SIGNING_NODE_WHITELISTING := some [⟨3, [1, 2, 3, 4, 5, 6, 7, 8, 9]⟩] }

/-- A forged message for the case where the device stops answering after the nonce
was issued: the payload of `toyMsg` followed by the identifier byte and by bytes
1 to 22 of the nonce, which went over the air in clear and is still in the
response buffer. -/
def toyForgedMsg : MyMessage :=
  { toyMsg with
    data := memcpy toyMsg.data 2
      (poke toyNonceRun.2.1._signing_rx_buffer 1 SIGNING_IDENTIFIER) 1 23 }

/-- An example device that is not answering and whose driver zeroes the response
buffer before reporting the failure. -/
def zeroingHal : Hal ToyWorld where
  hwMillis w := (w.clock, w)
  atsha204_wakeup w b := (231, b, w)
  atsha204_idle w := w
  atsha204_sleep w := w
  atsha204_execute w _ _ := (240, zeroBuf, w)

/-- A forged message for `zeroingHal`: the payload of `toyMsg` followed by the
identifier byte and zeros. -/
def toyZeroForgedMsg : MyMessage :=
  { toyMsg with data := ofList [20, 21, 1] }

/-- World of the example radio: the frame on air, the node address, and what the
cipher object has been given so far. -/
structure ToyRadio where
  frame : List Nat
  address : Nat
  iv : List Nat
  aad : List Nat
  ct : List Nat

/-- Key stream byte `i` of the example cipher. -/
def toyKeyStream (iv : List Nat) (i : Nat) : Nat := (iv.getD (i % 16) 0 + 3 * i + 90) % 256

/-- Tag of the example cipher over IV, associated data and ciphertext. -/
def toyTag (r : ToyRadio) : List Nat :=
  (List.range 16).map (fun i => (r.iv.sum + r.aad.sum + r.ct.sum + i) % 256)

/-- An example radio and stream cipher: the frame is copied into the receive buffer,
decryption XORs the key stream into the output buffer, the tag check compares
with `toyTag`. -/
def toyRadioHal : RadioHal ToyRadio where
  RFM95_recv r buf maxLen :=
    (min r.frame.length maxLen,
      fun i => if i < min r.frame.length maxLen then r.frame.getD i 0 else buf i, r)
  RFM95_getAddress r := r.address
  eax_setIV r iv := { r with iv := iv }
  eax_addAuthData r a := { r with aad := a }
  eax_decrypt r out input :=
    (fun i => if i < input.length then input.getD i 0 ^^^ toyKeyStream r.iv i else out i,
      { r with ct := input })
  eax_checkTag r tag := (tag == toyTag r, r)

/-- A 48-byte frame for node 5 (16 bytes IV, 16 bytes ciphertext, 16 bytes tag) whose
tag is not the tag of its contents. -/
def toyBadFrame : ToyRadio where
  frame := (List.range 32).map (fun i => (5 * i + 1) % 256) ++ List.replicate 16 0
  address := 5
  iv := []
  aad := []
  ct := []

/-- Example build of a verifier whose table knows node 3 with the serial of
`toyState`; `DO_WHITELIST` is the one of `toyCfg` and plays no part in verification. -/
def toyCfgTable : Config :=
  { toyCfg with MY_SIGNING_NODE_WHITELISTING := some [⟨3, [1, 2, 3, 4, 5, 6, 7, 8, 9]⟩] }

/-! ## Basic facts -/

theorem memset_apply (dst : Buf) (off v n i : Nat) :
    memset dst off v n i = if off ≤ i ∧ i < off + n then v else dst i := rfl

theorem memcpy_apply (dst : Buf) (off : Nat) (src : Buf) (srcOff n i : Nat) :
    memcpy dst off src srcOff n i
      = if off ≤ i ∧ i < off + n then src (srcOff + (i - off)) else dst i := rfl

theorem poke_apply (dst : Buf) (i v j : Nat) :
    poke dst i v j = if j = i then v else dst j := rfl

theorem bytes_length (b : Buf) (off n : Nat) : (bytes b off n).length = n := by
  simp [bytes]

theorem bytes_eq_iff (a b : Buf) (offA offB n : Nat) :
    bytes a offA n = bytes b offB n ↔ ∀ i, i < n → a (offA + i) = b (offB + i) := by
  unfold bytes
  constructor
  · intro h i hi
    have := congrArg (fun l => l.getD i 0) h
    simpa [List.getD_eq_getElem?_getD, hi] using this
  · intro h
    apply List.map_congr_left
    intro i hi
    exact h i (List.mem_range.mp hi)

/-! ## Payload size guard of `signerAtsha204SignMsg` -/

/-- C4: `signerAtsha204SignMsg` returns false exactly when the payload length exceeds
`MAX_PAYLOAD-2`, and when it returns false the message it hands back is the message
it was given. -/
theorem signMsg_refuses_iff_too_large (cfg : Config) (hal : Hal σ) (st : SigningState)
    (w : σ) (msg : MyMessage) :
    ((signerAtsha204SignMsg cfg hal st w msg).1 = false
        ↔ (mGetLength msg : Int) > (cfg.MAX_PAYLOAD : Int) - 2) ∧
    ((signerAtsha204SignMsg cfg hal st w msg).1 = false
        → (signerAtsha204SignMsg cfg hal st w msg).2.2.2 = msg) := by
  unfold signerAtsha204SignMsg
  by_cases h : (mGetLength msg : Int) > (cfg.MAX_PAYLOAD : Int) - 2
  · simp [h]
  · simp [h]

/-! ## Verification timeout: `signerAtsha204CheckTimer` -/

theorem purgeNonces_spec (st : SigningState) :
    (∀ i, i < 32 → (purgeNonces st)._signing_verifying_nonce i = 170) ∧
    (∀ i, i < 32 → (purgeNonces st)._signing_signing_nonce i = 170) ∧
    (purgeNonces st)._signing_verification_ongoing = false := by
  refine ⟨?_, ?_, rfl⟩ <;> intro i hi <;> simp [purgeNonces, memset_apply, hi]

/-- C6, as stated, fails at the deadline itself: with issue time 1000 and timeout 5000
the instant 6000 lies outside the half-open window `[1000, 6000)`, yet the timer check
on an initialised backend with a verification ongoing returns true and leaves the
verification ongoing. -/
theorem checkTimer_deadline_counterexample :
    (toyState 1000 true).init_ok = true ∧
    (toyState 1000 true)._signing_verification_ongoing = true ∧
    (toyHal.hwMillis (toyWorld 6000)).1 = 6000 ∧
    ¬ ((toyState 1000 true)._signing_timestamp ≤ 6000 ∧
        6000 < (toyState 1000 true)._signing_timestamp + toyCfg.MY_VERIFICATION_TIMEOUT_MS) ∧
    (signerAtsha204CheckTimer toyCfg toyHal (toyState 1000 true) (toyWorld 6000)).1 = true ∧
    (signerAtsha204CheckTimer toyCfg toyHal (toyState 1000 true)
      (toyWorld 6000)).2.1._signing_verification_ongoing = true := by
  decide

/-- C6 (amended): on an initialised backend, with both clock readings equal to `now`,
`signerAtsha204CheckTimer` returns false, sets the 32 bytes of both nonces to the
sentinel and clears verification-ongoing exactly when a verification is ongoing and
`now` is outside the closed window from the issue time to the issue time plus the
timeout (the sum taken in 32-bit arithmetic); otherwise it returns true and the
backend state is unchanged. -/
theorem checkTimer_closed_window (cfg : Config) (hal : Hal σ) (st : SigningState) (w : σ)
    (now : Nat) (hinit : st.init_ok = true)
    (h1 : (hal.hwMillis w).1 = now)
    (h2 : (hal.hwMillis (hal.hwMillis w).2).1 = now) :
    ((st._signing_verification_ongoing = true ∧
        ¬ (st._signing_timestamp ≤ now ∧
            now ≤ (st._signing_timestamp + cfg.MY_VERIFICATION_TIMEOUT_MS) % 2 ^ 32)) →
      (signerAtsha204CheckTimer cfg hal st w).1 = false ∧
      (∀ i, i < 32 →
        (signerAtsha204CheckTimer cfg hal st w).2.1._signing_verifying_nonce i = 170) ∧
      (∀ i, i < 32 →
        (signerAtsha204CheckTimer cfg hal st w).2.1._signing_signing_nonce i = 170) ∧
      (signerAtsha204CheckTimer cfg hal st w).2.1._signing_verification_ongoing = false) ∧
    (¬ (st._signing_verification_ongoing = true ∧
        ¬ (st._signing_timestamp ≤ now ∧
            now ≤ (st._signing_timestamp + cfg.MY_VERIFICATION_TIMEOUT_MS) % 2 ^ 32)) →
      (signerAtsha204CheckTimer cfg hal st w).1 = true ∧
      (signerAtsha204CheckTimer cfg hal st w).2.1 = st) := by
  have hp := purgeNonces_spec st
  have e : (2 : ℕ) ^ 32 = 4294967296 := by norm_num
  unfold signerAtsha204CheckTimer
  simp only [hinit, h1, h2, ULONG_MOD, Bool.not_true, Bool.false_eq_true, if_false, e]
  constructor
  · rintro ⟨hong, hout⟩
    simp only [hong, if_true]
    by_cases hlt : now < st._signing_timestamp
    · simpa [hlt] using hp
    · have hgt : (st._signing_timestamp + cfg.MY_VERIFICATION_TIMEOUT_MS) % 4294967296 < now := by
        by_contra hc
        exact hout ⟨by omega, by omega⟩
      simpa [hlt, hgt] using hp
  · intro hn
    by_cases hong : st._signing_verification_ongoing = true
    · have hin : st._signing_timestamp ≤ now ∧
          now ≤ (st._signing_timestamp + cfg.MY_VERIFICATION_TIMEOUT_MS) % 4294967296 := by
        by_contra hc
        exact hn ⟨hong, hc⟩
      have hlt : ¬ now < st._signing_timestamp := by omega
      have hgt : ¬ (st._signing_timestamp + cfg.MY_VERIFICATION_TIMEOUT_MS) % 4294967296 < now := by
        omega
      simp [hong, hlt, hgt]
    · simp [hong]

/-- The amended C6 at the deadline: issue time 1000, timeout 5000, clock 6000. -/
theorem checkTimer_closed_window_witness :
    (signerAtsha204CheckTimer toyCfg toyHal (toyState 1000 true) (toyWorld 6000)).1 = true ∧
    (signerAtsha204CheckTimer toyCfg toyHal (toyState 1000 true) (toyWorld 6000)).2.1
      = toyState 1000 true :=
  (checkTimer_closed_window toyCfg toyHal (toyState 1000 true) (toyWorld 6000) 6000
    rfl rfl rfl).2 (by decide)

/-! ## Fields the signature computation leaves alone -/

theorem SameControl.refl (st : SigningState) : SameControl st st := ⟨rfl, rfl, rfl, rfl⟩

theorem SameControl.trans {a b c : SigningState} (h1 : SameControl a b)
    (h2 : SameControl b c) : SameControl a c :=
  ⟨h2.1.trans h1.1, h2.2.1.trans h1.2.1, h2.2.2.1.trans h1.2.2.1, h2.2.2.2.trans h1.2.2.2⟩

theorem setNonceBuf_sameControl (st : SigningState) (signing : Bool) (b : Buf) :
    SameControl st (setNonceBuf st signing b) := by
  cases signing <;> exact ⟨rfl, rfl, rfl, rfl⟩

theorem signerAtsha204AHmac_sameControl (hal : Hal σ) (st : SigningState) (w : σ)
    (nonce data : Buf) : SameControl st (signerAtsha204AHmac hal st w nonce data).1 :=
  ⟨rfl, rfl, rfl, rfl⟩

theorem signerSha256_sameControl (cfg : Config) (hal : Hal σ) (st : SigningState) (w : σ)
    (data : Buf) (sz : Nat) : SameControl st (signerSha256 cfg hal st w data sz).1 :=
  ⟨rfl, rfl, rfl, rfl⟩

theorem saltSignature_sameControl (cfg : Config) (hal : Hal σ) (st : SigningState) (w : σ)
    (signing : Bool) (sender : Nat) (serial : Buf) :
    SameControl st (saltSignature cfg hal st w signing sender serial).1 :=
  (setNonceBuf_sameControl st signing _).trans (signerSha256_sameControl cfg hal _ w _ _)

theorem signaturePass_sameControl (hal : Hal σ) (msg : MyMessage) (signing : Bool)
    (n : Nat) (pos : Int) (st : SigningState) (w : σ) :
    SameControl st (signaturePass hal msg signing n pos st w).1 := by
  cases signing <;> exact ⟨rfl, rfl, rfl, rfl⟩

theorem carryHmac_sameControl (cfg : Config) (st : SigningState) (signing : Bool) :
    SameControl st (carryHmac cfg st signing) :=
  setNonceBuf_sameControl _ _ _

theorem signerCalculateSignatureLoop_sameControl (cfg : Config) (hal : Hal σ)
    (msg : MyMessage) (signing : Bool) (fuel : Nat) :
    ∀ (bytes_left : Nat) (current_pos : Int) (st : SigningState) (w : σ),
      SameControl st
        (signerCalculateSignatureLoop cfg hal msg signing fuel bytes_left current_pos st w).1 := by
  induction fuel with
  | zero => intro _ _ st _; exact SameControl.refl st
  | succ n ih =>
    intro bytes_left current_pos st w
    unfold signerCalculateSignatureLoop
    by_cases h0 : bytes_left = 0
    · simp only [h0, if_true]; exact SameControl.refl st
    · simp only [h0, if_false]
      refine (signaturePass_sameControl hal msg signing (min bytes_left 32)
        current_pos st w).trans ?_
      split
      · exact (carryHmac_sameControl _ _ _).trans (ih _ _ _ _)
      · exact ih _ _ _ _

theorem signerCalculateSignature_sameControl (cfg : Config) (hal : Hal σ) (st : SigningState)
    (w : σ) (msg : MyMessage) (signing : Bool) :
    SameControl st (signerCalculateSignature cfg hal st w msg signing).1 :=
  signerCalculateSignatureLoop_sameControl cfg hal msg signing _ _ _ st w

/-! ## Rejections of `signerAtsha204VerifyMsg` -/

theorem verifyMsg_not_ongoing (cfg : Config) (hal : Hal σ) (st : SigningState) (w : σ)
    (msg : MyMessage) (h : st._signing_verification_ongoing = false) :
    (signerAtsha204VerifyMsg cfg hal st w msg).1 = false := by
  simp [signerAtsha204VerifyMsg, h]

theorem verifyMsg_true_clears (cfg : Config) (hal : Hal σ) (st : SigningState) (w : σ)
    (msg : MyMessage) (h : (signerAtsha204VerifyMsg cfg hal st w msg).1 = true) :
    (signerAtsha204VerifyMsg cfg hal st w msg).2.1._signing_verification_ongoing = false := by
  unfold signerAtsha204VerifyMsg at h ⊢
  by_cases h0 : st._signing_verification_ongoing = true
  · simp only [h0, Bool.not_true, Bool.false_eq_true, if_false] at h ⊢
    by_cases h1 : (signerCheckTimer cfg hal st w).1 = true
    · simp only [h1, Bool.not_true, Bool.false_eq_true, if_false] at h ⊢
      by_cases h2 : msgByte msg (mGetLength msg) ≠ SIGNING_IDENTIFIER
      · simp [h2] at h
      · simp only [h2, if_false] at h ⊢
        have hc := (signerCalculateSignature_sameControl cfg hal
          { (signerCheckTimer cfg hal st w).2.1 with _signing_verification_ongoing := false }
          (signerCheckTimer cfg hal st w).2.2 msg false).1
        cases hw : cfg.MY_SIGNING_NODE_WHITELISTING with
        | none =>
          simp only [hw] at h ⊢
          split <;> exact hc
        | some wl =>
          simp only [hw] at h ⊢
          cases he : findWhitelistEntry wl msg.sender with
          | none => simp [he] at h
          | some e =>
            simp only [he] at h ⊢
            have hs := (saltSignature_sameControl cfg hal
              (signerCalculateSignature cfg hal
                { (signerCheckTimer cfg hal st w).2.1 with _signing_verification_ongoing := false }
                (signerCheckTimer cfg hal st w).2.2 msg false).1
              (signerCalculateSignature cfg hal
                { (signerCheckTimer cfg hal st w).2.1 with _signing_verification_ongoing := false }
                (signerCheckTimer cfg hal st w).2.2 msg false).2
              false msg.sender (ofList e.serial)).1
            split <;> exact hs.trans hc
    · simp [h1] at h
  · simp [h0] at h

theorem findWhitelistEntry_none (wl : List whitelist_entry_t) (sender : Nat)
    (h : ∀ e, e ∈ wl → e.nodeId ≠ sender) : findWhitelistEntry wl sender = none := by
  unfold findWhitelistEntry
  rw [List.find?_eq_none]
  intro e he
  simpa using h e he

/-- C2: once `signerAtsha204GetNonce` has succeeded and one `signerAtsha204VerifyMsg`
has returned true, a second `signerAtsha204VerifyMsg` on the same message, with no
nonce issued in between, returns false, whatever happened to the clock and the
device in the meantime. -/
theorem verify_nonce_single_use (cfg : Config) (hal : Hal σ) (st : SigningState) (w : σ)
    (m : MyMessage) (w1 w2 : σ) (msg : MyMessage)
    (_hnonce : (signerAtsha204GetNonce cfg hal st w m).1 = true)
    (hfirst : (signerAtsha204VerifyMsg cfg hal
      (signerAtsha204GetNonce cfg hal st w m).2.1 w1 msg).1 = true) :
    (signerAtsha204VerifyMsg cfg hal
      (signerAtsha204VerifyMsg cfg hal
        (signerAtsha204GetNonce cfg hal st w m).2.1 w1 msg).2.1 w2 msg).1 = false :=
  verifyMsg_not_ongoing cfg hal _ w2 msg (verifyMsg_true_clears cfg hal _ w1 msg hfirst)

/-- C2 on the example device: a nonce is issued, the signed example message verifies
once, and its replay is rejected. -/
theorem verify_nonce_single_use_witness :
    (signerAtsha204VerifyMsg toyCfg toyHal
      (signerAtsha204VerifyMsg toyCfg toyHal toyNonceRun.2.1 (toyWorld 1200)
        toySignedMsg).2.1 (toyWorld 1300) toySignedMsg).1 = false :=
  verify_nonce_single_use toyCfg toyHal (toyState 0 false) (toyWorld 1000) toyMsg
    (toyWorld 1200) (toyWorld 1300) toySignedMsg (by decide) (by decide)

/-- C7: in a build with a whitelist table, a message whose sender matches no `nodeId`
of the table is rejected by `signerAtsha204VerifyMsg`, from every state of the
backend and of the device and for every content of the message. -/
theorem verify_rejects_unlisted_sender (cfg : Config) (hal : Hal σ) (st : SigningState)
    (w : σ) (msg : MyMessage) (wl : List whitelist_entry_t)
    (hbuild : cfg.MY_SIGNING_NODE_WHITELISTING = some wl)
    (hunlisted : ∀ e, e ∈ wl → e.nodeId ≠ msg.sender) :
    (signerAtsha204VerifyMsg cfg hal st w msg).1 = false := by
  unfold signerAtsha204VerifyMsg
  simp only [hbuild, findWhitelistEntry_none wl msg.sender hunlisted]
  split
  · rfl
  · split
    · rfl
    · split <;> rfl

/-- C7 on the example whitelist (node 7 only) and a correctly signed message of node 3. -/
theorem verify_rejects_unlisted_sender_witness :
    (signerAtsha204VerifyMsg toyCfgWhitelist toyHal toyNonceRun.2.1 (toyWorld 1200)
      toySignedMsg).1 = false :=
  verify_rejects_unlisted_sender toyCfgWhitelist toyHal toyNonceRun.2.1 (toyWorld 1200)
    toySignedMsg [⟨7, [1, 2, 3, 4, 5, 6, 7, 8, 9]⟩] rfl (by decide)

/-- C9: on an initialised backend with a verification ongoing whose issue time plus
timeout plus one does not wrap the 32-bit timer, `signerAtsha204CheckTimer` at that
instant returns false, sets the 32 bytes of both nonces to `0xAA` and clears
verification-ongoing, and a following `signerAtsha204VerifyMsg` returns false for
every message. -/
theorem checkTimer_expiry_then_verify_rejects (cfg : Config) (hal : Hal σ)
    (st : SigningState) (w : σ) (now : Nat)
    (hinit : st.init_ok = true)
    (hongoing : st._signing_verification_ongoing = true)
    (hnow : now = st._signing_timestamp + cfg.MY_VERIFICATION_TIMEOUT_MS + 1)
    (hnowrap : st._signing_timestamp + cfg.MY_VERIFICATION_TIMEOUT_MS + 1 < 2 ^ 32)
    (h1 : (hal.hwMillis w).1 = now)
    (h2 : (hal.hwMillis (hal.hwMillis w).2).1 = now) :
    (signerAtsha204CheckTimer cfg hal st w).1 = false ∧
    (∀ i, i < 32 →
      (signerAtsha204CheckTimer cfg hal st w).2.1._signing_verifying_nonce i = 170) ∧
    (∀ i, i < 32 →
      (signerAtsha204CheckTimer cfg hal st w).2.1._signing_signing_nonce i = 170) ∧
    (signerAtsha204CheckTimer cfg hal st w).2.1._signing_verification_ongoing = false ∧
    ∀ (w' : σ) (msg : MyMessage),
      (signerAtsha204VerifyMsg cfg hal (signerAtsha204CheckTimer cfg hal st w).2.1 w' msg).1
        = false := by
  have hp := purgeNonces_spec st
  have e : (2 : ℕ) ^ 32 = 4294967296 := by norm_num
  rw [e] at hnowrap
  have hlt : ¬ now < st._signing_timestamp := by omega
  have hgt : (st._signing_timestamp + cfg.MY_VERIFICATION_TIMEOUT_MS) % 4294967296 < now := by
    rw [Nat.mod_eq_of_lt (by omega)]; omega
  have hr : signerAtsha204CheckTimer cfg hal st w
      = (false, purgeNonces st, (hal.hwMillis (hal.hwMillis w).2).2) := by
    unfold signerAtsha204CheckTimer
    simp [hinit, hongoing, h1, h2, ULONG_MOD, hlt, hgt]
  rw [hr]
  refine ⟨rfl, hp.1, hp.2.1, hp.2.2, ?_⟩
  intro w' msg
  exact verifyMsg_not_ongoing cfg hal _ w' msg hp.2.2

/-- C9 on the example device: issue time 1000, timeout 5000, clock 6001. -/
theorem checkTimer_expiry_then_verify_rejects_witness :
    (signerAtsha204CheckTimer toyCfg toyHal (toyState 1000 true) (toyWorld 6001)).1 = false ∧
    (signerAtsha204VerifyMsg toyCfg toyHal
      (signerAtsha204CheckTimer toyCfg toyHal (toyState 1000 true) (toyWorld 6001)).2.1
      (toyWorld 6002) toySignedMsg).1 = false :=
  have h := checkTimer_expiry_then_verify_rejects toyCfg toyHal (toyState 1000 true)
    (toyWorld 6001) 6001 rfl rfl (by decide) (by decide) rfl rfl
  ⟨h.1, h.2.2.2.2 (toyWorld 6002) toySignedMsg⟩

/-! ## The HMAC chain of `signerCalculateSignature` -/

theorem chunks32_nil : chunks32 [] = [] := by
  simp [chunks32]

theorem chunks32_cons (r : List Nat) (h : 0 < r.length) :
    chunks32 r = pad32 (r.take 32) :: chunks32 (r.drop 32) := by
  unfold chunks32
  have hn : (r.length + 31) / 32 = ((r.drop 32).length + 31) / 32 + 1 := by
    rw [List.length_drop]; omega
  rw [hn, List.range_succ_eq_map, List.map_cons, List.map_map]
  simp only [Nat.mul_zero, List.drop_zero, List.cons.injEq, true_and]
  apply List.map_congr_left
  intro k _
  simp only [Function.comp_apply, List.drop_drop]
  congr 3
  omega

theorem regionFrom_length (msg : MyMessage) (pos : Int) (n : Nat) :
    (regionFrom msg pos n).length = n := by
  simp [regionFrom]

theorem regionFrom_take (msg : MyMessage) (pos : Int) (n : Nat) :
    (regionFrom msg pos n).take 32 = regionFrom msg pos (min n 32) := by
  unfold regionFrom
  rw [← List.map_take, List.take_range, Nat.min_comm]

theorem regionFrom_drop (msg : MyMessage) (pos : Int) (n : Nat) :
    (regionFrom msg pos n).drop 32 = regionFrom msg (pos + 32) (n - 32) := by
  apply List.ext_getElem
  · simp [regionFrom]
  · intro i h1 h2
    simp only [regionFrom, List.getElem_drop, List.getElem_map, List.getElem_range]
    congr 1
    push_cast
    ring

theorem hmacBytes_setNonceBuf (cfg : Config) (st : SigningState) (signing : Bool) (b : Buf) :
    hmacBytes cfg (setNonceBuf st signing b) = hmacBytes cfg st := by
  cases signing <;> rfl

theorem nonceBuf_setNonceBuf (st : SigningState) (signing : Bool) (b : Buf) :
    nonceBuf (setNonceBuf st signing b) signing = b := by
  cases signing <;> rfl

theorem scratch_bytes (t : Buf) (msg : MyMessage) (pos : Int) (m : Nat) (hm : m ≤ 32) :
    bytes (memcpyFromMsg (memset t 0 0 32) msg pos m) 0 32 = pad32 (regionFrom msg pos m) := by
  apply List.ext_getElem
  · simp [bytes, pad32, regionFrom]; omega
  · intro i h1 h2
    have hi : i < 32 := by simpa [bytes] using h1
    simp only [bytes, pad32, regionFrom, List.getElem_map, List.getElem_range, memcpyFromMsg,
      memset_apply, Nat.zero_add]
    by_cases him : i < m
    · rw [List.getElem_append_left (by simpa using him)]
      simp [him]
    · rw [List.getElem_append_right (by simpa using him)]
      simp [him, hi]

theorem signaturePass_hmac (cfg : Config) (hal : Hal σ) (F : List Nat → List Nat → List Nat)
    (hF : HmacIs cfg hal F) (msg : MyMessage) (signing : Bool) (m : Nat) (hm : m ≤ 32)
    (pos : Int) (st : SigningState) (w : σ) :
    hmacBytes cfg (signaturePass hal msg signing m pos st w).1
      = F (bytes (nonceBuf st signing) 0 32) (pad32 (regionFrom msg pos m)) := by
  unfold signaturePass
  simp only [hmacBytes_setNonceBuf]
  rw [hF, scratch_bytes _ msg pos m hm]
  cases signing <;> rfl

theorem carryHmac_nonce (cfg : Config) (st : SigningState) (signing : Bool) :
    bytes (nonceBuf (carryHmac cfg st signing) signing) 0 32 = hmacBytes cfg st := by
  unfold carryHmac
  rw [nonceBuf_setNonceBuf, hmacBytes, bytes_eq_iff]
  intro i hi
  simp [memcpy_apply, hi]

theorem signerCalculateSignatureLoop_zero (cfg : Config) (hal : Hal σ) (msg : MyMessage)
    (signing : Bool) (fuel : Nat) (pos : Int) (st : SigningState) (w : σ) :
    signerCalculateSignatureLoop cfg hal msg signing fuel 0 pos st w = (st, w) := by
  cases fuel <;> simp [signerCalculateSignatureLoop]

/-- The loop computes the chain over the bytes it still has to process, for every
number of bytes left (32, 65, ...), as soon as the fuel covers them. -/
theorem signerCalculateSignatureLoop_chain (cfg : Config) (hal : Hal σ)
    (F : List Nat → List Nat → List Nat) (hF : HmacIs cfg hal F) (msg : MyMessage)
    (signing : Bool) (fuel : Nat) :
    ∀ (bytes_left : Nat) (pos : Int) (st : SigningState) (w : σ),
      0 < bytes_left → bytes_left ≤ fuel →
      hmacBytes cfg (signerCalculateSignatureLoop cfg hal msg signing fuel bytes_left pos st w).1
        = (chunks32 (regionFrom msg pos bytes_left)).foldl F
            (bytes (nonceBuf st signing) 0 32) := by
  induction fuel with
  | zero => intro bl _ _ _ h1 h2; omega
  | succ n ih =>
    intro bl pos st w hpos hfuel
    have h0 : bl ≠ 0 := by omega
    unfold signerCalculateSignatureLoop
    simp only [h0, if_false]
    rw [chunks32_cons _ (by rw [regionFrom_length]; exact hpos), regionFrom_take,
      regionFrom_drop, List.foldl_cons,
      ← signaturePass_hmac cfg hal F hF msg signing (min bl 32) (Nat.min_le_right _ _) pos st w]
    by_cases hmore : bl - min bl 32 > 0
    · have hmin : min bl 32 = 32 := by omega
      simp only [hmore, if_true]
      rw [ih _ _ _ _ hmore (by omega), carryHmac_nonce, hmin]
      rfl
    · have hz : bl - min bl 32 = 0 := by omega
      have hz' : bl - 32 = 0 := by omega
      simp only [hmore, if_false]
      rw [hz, signerCalculateSignatureLoop_zero, hz']
      simp [regionFrom, chunks32_nil]

theorem regionFrom_header (msg : MyMessage) :
    regionFrom msg (1 - (HEADER_SIZE : Int)) (mGetLength msg + HEADER_SIZE - 1)
      = signedRegion msg := by
  have hn : mGetLength msg + HEADER_SIZE - 1 = 6 + mGetLength msg := by
    simp [HEADER_SIZE]; omega
  rw [hn]
  unfold regionFrom signedRegion
  rw [List.range_add, List.map_append]
  congr 1
  rw [List.map_map]
  unfold bytes
  apply List.map_congr_left
  intro i _
  have : (1 : Int) - ((HEADER_SIZE : Nat) : Int) + ((6 + i : Nat) : Int) = (i : Int) := by
    simp [HEADER_SIZE]
  simp only [Function.comp_apply, this, msgByte]
  simp

theorem signedRegion_last (msg : MyMessage) (b : Nat) :
    signedRegion { msg with last := b } = signedRegion msg := rfl

theorem signerCalculateSignature_chain (cfg : Config) (hal : Hal σ)
    (F : List Nat → List Nat → List Nat) (hF : HmacIs cfg hal F) (st : SigningState) (w : σ)
    (msg : MyMessage) (signing : Bool) :
    hmacBytes cfg (signerCalculateSignature cfg hal st w msg signing).1
      = specSignature F (bytes (nonceBuf st signing) 0 32) msg := by
  unfold signerCalculateSignature specSignature
  rw [signerCalculateSignatureLoop_chain cfg hal F hF msg signing _ _ _ st w
    (by simp [HEADER_SIZE]) (le_refl _), regionFrom_header]

theorem toyHal_hmacIs : HmacIs toyCfg toyHal toyMac := by
  intro st w nonce data
  simp only [hmacBytes, signerAtsha204AHmac, toyHal, toyCfg, respond]
  unfold bytes
  conv_rhs => unfold toyMac
  apply List.ext_getElem
  · simp
  · intro i h1 h2
    have hi : i < 32 := by simpa using h1
    have h3 : 1 + i < 33 := by omega
    simp [respond, h3, toyMac, List.getD_eq_getElem?_getD, hi]

/-- C3: when the device computes the function `hmac`, `signerCalculateSignature` leaves
at `_signing_hmac` the fold of `h := hmac(h, chunk)` over the consecutive 32-byte
chunks (the last one zero-padded) of the header without its first byte followed by
the payload, starting from the nonce; the result is the same whatever the first
header byte is. -/
theorem signerCalculateSignature_is_hmac_chain (cfg : Config) (hal : Hal σ)
    (hmac : List Nat → List Nat → List Nat) (hdev : HmacIs cfg hal hmac)
    (st : SigningState) (w : σ) (msg : MyMessage) (signing : Bool) :
    hmacBytes cfg (signerCalculateSignature cfg hal st w msg signing).1
      = specSignature hmac (bytes (nonceBuf st signing) 0 32) msg ∧
    ∀ b : Nat,
      hmacBytes cfg (signerCalculateSignature cfg hal st w { msg with last := b } signing).1
        = hmacBytes cfg (signerCalculateSignature cfg hal st w msg signing).1 := by
  refine ⟨signerCalculateSignature_chain cfg hal hmac hdev st w msg signing, fun b => ?_⟩
  rw [signerCalculateSignature_chain cfg hal hmac hdev st w msg signing,
    signerCalculateSignature_chain cfg hal hmac hdev st w _ signing]
  rfl

/-- C3 on the example device, for a message whose signed region takes two passes. -/
theorem signerCalculateSignature_is_hmac_chain_witness :
    hmacBytes toyCfg
        (signerCalculateSignature toyCfg toyHal (toyState 0 true) (toyWorld 0) toyLongMsg
          false).1
      = specSignature toyMac (bytes (nonceBuf (toyState 0 true) false) 0 32) toyLongMsg :=
  (signerCalculateSignature_is_hmac_chain toyCfg toyHal toyMac toyHal_hmacIs (toyState 0 true)
    (toyWorld 0) toyLongMsg false).1

/-! ## Sign, then verify -/

theorem mGetLength_mSetSigned (msg : MyMessage) :
    mGetLength (mSetSigned msg 1) = mGetLength msg := by
  unfold mGetLength mSetSigned
  apply Nat.eq_of_testBit_eq
  intro i
  simp only [Nat.testBit_and, Nat.testBit_shiftRight, Nat.testBit_or]
  have h31 : Nat.testBit 31 i = decide (i < 5) := by
    have := Nat.testBit_two_pow_sub_one 5 i
    simpa using this
  rw [h31]
  by_cases hi : i < 5
  · have h251 : Nat.testBit 251 (3 + i) = true := by
      interval_cases i <;> decide
    have h4 : Nat.testBit 4 (3 + i) = false := by
      interval_cases i <;> decide
    simp [h251, h4, hi]
  · simp [hi]

theorem msgByte_nat (msg : MyMessage) (n : Nat) : msgByte msg (n : Int) = msg.data n := by
  simp [msgByte]

theorem signatureSize_of_fits (cfg : Config) (len : Nat)
    (h : (len : Int) ≤ (cfg.MAX_PAYLOAD : Int) - 2) :
    0 < signatureSize cfg len ∧ signatureSize cfg len ≤ 32 := by
  unfold signatureSize toSizeT
  have h1 : (2 : Int) ≤ min ((cfg.MAX_PAYLOAD : Int) - (len : Int)) 32 := le_min (by omega) (by omega)
  have h2 : min ((cfg.MAX_PAYLOAD : Int) - (len : Int)) 32 ≤ 32 := min_le_right _ _
  rw [Int.emod_eq_of_lt (by omega) (by omega)]
  omega

theorem signerMemcmp_eq_zero (a : Buf) (aOff : Nat) (b : Buf) (bOff sz : Nat)
    (h : ∀ i, i < sz → a (aOff + i) = b (bOff + i)) : signerMemcmp a aOff b bOff sz = 0 := by
  have hall : (List.range sz).all (fun i => a (aOff + i) == b (bOff + i)) = true := by
    rw [List.all_eq_true]
    intro i hi
    simpa using h i (List.mem_range.mp hi)
  unfold signerMemcmp
  rw [if_pos hall]

theorem signerCheckTimer_pass (cfg : Config) (hal : Hal σ) (st : SigningState) (w : σ)
    (hinit : st.init_ok = true) (hongoing : st._signing_verification_ongoing = true)
    (htime : NotTimedOut cfg hal st w) :
    signerCheckTimer cfg hal st w = (true, st, (hal.hwMillis (hal.hwMillis w).2).2) := by
  unfold signerCheckTimer signerAtsha204CheckTimer
  simp [hinit, hongoing, htime.1, htime.2]

theorem saltSignature_hmac (cfg : Config) (hal : Hal σ) (G : List Nat → List Nat)
    (hG : ShaIs cfg hal G) (st : SigningState) (w : σ) (signing : Bool) (sender : Nat)
    (serial : Buf) :
    hmacBytes cfg (saltSignature cfg hal st w signing sender serial).1
      = G (hmacBytes cfg st ++ [sender] ++ bytes serial 0 9) := by
  unfold saltSignature
  simp only [nonceBuf_setNonceBuf]
  rw [hG]
  congr 1

theorem hmac_identifier_agree (a b : Buf) (offA offB : Nat)
    (h : bytes a offA 32 = bytes b offB 32) (i : Nat) (hi : i < 32) :
    poke a offA SIGNING_IDENTIFIER (offA + i) = poke b offB SIGNING_IDENTIFIER (offB + i) := by
  rw [bytes_eq_iff] at h
  simp only [poke_apply]
  by_cases h0 : i = 0
  · simp [h0]
  · have hA : ¬ offA + i = offA := by omega
    have hB : ¬ offB + i = offB := by omega
    simp only [hA, hB, if_false]
    exact h i hi

theorem verifyMsg_accepts_of (cfg : Config) (hal : Hal σ) (st : SigningState) (w : σ)
    (msg : MyMessage) (s : SigningState × σ)
    (hinit : st.init_ok = true) (hongoing : st._signing_verification_ongoing = true)
    (htime : NotTimedOut cfg hal st w)
    (hid : msg.data (mGetLength msg) = SIGNING_IDENTIFIER)
    (hs : expectedHmac cfg hal { st with _signing_verification_ongoing := false }
      (hal.hwMillis (hal.hwMillis w).2).2 msg = some s)
    (hsig : ∀ i, i < signatureSize cfg (mGetLength msg) →
      msg.data (mGetLength msg + i)
        = poke s.1._signing_rx_buffer cfg.SHA204_BUFFER_POS_DATA SIGNING_IDENTIFIER
            (cfg.SHA204_BUFFER_POS_DATA + i)) :
    (signerAtsha204VerifyMsg cfg hal st w msg).1 = true := by
  unfold signerAtsha204VerifyMsg
  simp only [hongoing, signerCheckTimer_pass cfg hal st w hinit hongoing htime, msgByte_nat, hid]
  unfold expectedHmac at hs
  cases hw : cfg.MY_SIGNING_NODE_WHITELISTING with
  | none =>
    simp only [hw, Option.some.injEq] at hs
    subst hs
    simp [signerMemcmp_eq_zero _ _ _ _ _ hsig]
  | some wl =>
    simp only [hw] at hs
    cases he : findWhitelistEntry wl msg.sender with
    | none => simp [he] at hs
    | some e =>
      simp only [he, Option.some.injEq] at hs
      subst hs
      simp [he, signerMemcmp_eq_zero _ _ _ _ _ hsig]

theorem toyHal_shaIs : ShaIs toyCfg toyHal toySha := by
  intro st w data sz
  unfold toySha
  simp only [hmacBytes, signerSha256, toyHal, bytes_length]
  have hblock : ∀ (t t' : Buf),
      bytes (poke (poke (poke (memcpy (memset t 0 0 toyCfg.SHA_MSG_SIZE) 0 data 0 sz) sz 128)
          (toyCfg.SHA_MSG_SIZE - 2) ((sz >>> 5) % 256))
          (toyCfg.SHA_MSG_SIZE - 1) ((sz <<< 3) % 256)) 0 toyCfg.SHA_MSG_SIZE
        = bytes (poke (poke (poke (memcpy (memset t' 0 0 toyCfg.SHA_MSG_SIZE) 0
          (ofList (bytes data 0 sz)) 0 sz) sz 128)
          (toyCfg.SHA_MSG_SIZE - 2) ((sz >>> 5) % 256))
          (toyCfg.SHA_MSG_SIZE - 1) ((sz <<< 3) % 256)) 0 toyCfg.SHA_MSG_SIZE := by
    intro t t'
    rw [bytes_eq_iff]
    intro j hj
    simp only [poke_apply, memcpy_apply, memset_apply, Nat.zero_add, Nat.sub_zero, Nat.zero_le,
      true_and]
    by_cases hjs : j < sz
    · simp [hjs, hj, ofList, bytes, List.getD_eq_getElem?_getD]
    · simp [hjs, hj]
  rw [hblock st._signing_temp_message (toyState 0 false)._signing_temp_message, bytes_eq_iff]
  intro i hi
  have h3 : 1 + i < 33 := by omega
  simp [respond, toyCfg, h3]

theorem signMsg_message (cfg : Config) (hal : Hal σ) (st : SigningState) (w : σ)
    (msg : MyMessage) (h : (mGetLength msg : Int) ≤ (cfg.MAX_PAYLOAD : Int) - 2) :
    (signerAtsha204SignMsg cfg hal st w msg).2.2.2
      = { mSetSigned msg 1 with
          data := memcpy msg.data (mGetLength msg)
            (poke (signedHmac cfg hal st w (mSetSigned msg 1)).1._signing_rx_buffer
              cfg.SHA204_BUFFER_POS_DATA SIGNING_IDENTIFIER)
            cfg.SHA204_BUFFER_POS_DATA (signatureSize cfg (mGetLength msg)) } := by
  unfold signerAtsha204SignMsg signedHmac
  rw [if_neg (not_lt.mpr h)]
  simp only [mGetLength_mSetSigned]
  rfl

/-- C1, as stated, fails when only the verifier salts: the example signer does not
salt (`DO_WHITELIST` false), the verifier is built with a table whose entry for
the sender holds the signer's serial, nonces agree, the verification is ongoing
and inside its window, the device is the same, and `signerAtsha204VerifyMsg`
rejects the message produced by `signerAtsha204SignMsg`. -/
theorem verify_of_unsalted_sign_counterexample :
    (mGetLength toyMsg : Int) ≤ (toyCfg.MAX_PAYLOAD : Int) - 2 ∧
    bytes (signerAtsha204PutNonce toyCfg (toyState 0 false)
        toyNonceRun.2.2.2)._signing_signing_nonce 0 32
      = bytes toyNonceRun.2.1._signing_verifying_nonce 0 32 ∧
    toyNonceRun.2.1.init_ok = true ∧
    toyNonceRun.2.1._signing_verification_ongoing = true ∧
    (signerAtsha204CheckTimer toyCfgTable toyHal toyNonceRun.2.1 (toyWorld 1200)).1 = true ∧
    toyCfg.DO_WHITELIST toyMsg.destination = false ∧
    (toyCfgTable.MY_SIGNING_NODE_WHITELISTING.bind
        (fun wl => findWhitelistEntry wl toyMsg.sender)).map
        (fun e => bytes (ofList e.serial) 0 9)
      = some (bytes (signerAtsha204PutNonce toyCfg (toyState 0 false)
          toyNonceRun.2.2.2)._signing_node_serial_info 0 9) ∧
    (signerAtsha204VerifyMsg toyCfgTable toyHal toyNonceRun.2.1 (toyWorld 1200)
      (signerAtsha204SignMsg toyCfg toyHal
        (signerAtsha204PutNonce toyCfg (toyState 0 false) toyNonceRun.2.2.2)
        (toyWorld 1000) toyMsg).2.2.2).1 = false := by
  decide

/-- C1 (amended): for a message whose payload length is at most `MAX_PAYLOAD-2`, if the
signer's signing nonce and the verifier's verifying nonce agree on all 32 bytes, the
verifier is initialised with a verification ongoing and not timed out, both devices
compute the same HMAC and digest functions, and either neither side salts (the
signer's `DO_WHITELIST(destination)` is false and the verifier is built without a
whitelist table) or both sides salt (`DO_WHITELIST(destination)` is true and the
verifier's whitelist entry for the sender holds the signer's serial), then
`signerAtsha204VerifyMsg` accepts the message produced by `signerAtsha204SignMsg`. -/
theorem verify_of_sign_accepts {τ : Type} (cfgS cfgV : Config) (halS : Hal σ) (halV : Hal τ)
    (hmac : List Nat → List Nat → List Nat) (sha : List Nat → List Nat)
    (hmacS : HmacIs cfgS halS hmac) (hmacV : HmacIs cfgV halV hmac)
    (shaS : ShaIs cfgS halS sha) (shaV : ShaIs cfgV halV sha)
    (stS : SigningState) (wS : σ) (stV : SigningState) (wV : τ) (msg : MyMessage)
    (hmax : cfgV.MAX_PAYLOAD = cfgS.MAX_PAYLOAD)
    (hlen : (mGetLength msg : Int) ≤ (cfgS.MAX_PAYLOAD : Int) - 2)
    (hnonce : bytes stS._signing_signing_nonce 0 32 = bytes stV._signing_verifying_nonce 0 32)
    (hinit : stV.init_ok = true)
    (hongoing : stV._signing_verification_ongoing = true)
    (htime : NotTimedOut cfgV halV stV wV)
    (hsalt : (cfgS.DO_WHITELIST msg.destination = false ∧
          cfgV.MY_SIGNING_NODE_WHITELISTING = none) ∨
        (cfgS.DO_WHITELIST msg.destination = true ∧
          ∃ wl e, cfgV.MY_SIGNING_NODE_WHITELISTING = some wl ∧
            findWhitelistEntry wl msg.sender = some e ∧
            bytes (ofList e.serial) 0 9 = bytes stS._signing_node_serial_info 0 9)) :
    (signerAtsha204VerifyMsg cfgV halV stV wV
      (signerAtsha204SignMsg cfgS halS stS wS msg).2.2.2).1 = true := by
  have hL1 : mGetLength (mSetSigned msg 1) = mGetLength msg := mGetLength_mSetSigned msg
  obtain ⟨hn0, hn32⟩ := signatureSize_of_fits cfgS _ hlen
  have hnV : signatureSize cfgV (mGetLength msg) = signatureSize cfgS (mGetLength msg) := by
    unfold signatureSize; rw [hmax]
  rw [signMsg_message cfgS halS stS wS msg hlen]
  generalize hsS : signedHmac cfgS halS stS wS (mSetSigned msg 1) = sS
  generalize hm2 : ({ mSetSigned msg 1 with
      data := memcpy msg.data (mGetLength msg)
        (poke sS.1._signing_rx_buffer cfgS.SHA204_BUFFER_POS_DATA SIGNING_IDENTIFIER)
        cfgS.SHA204_BUFFER_POS_DATA (signatureSize cfgS (mGetLength msg)) } : MyMessage) = msg2
  have hL2 : mGetLength msg2 = mGetLength msg := by rw [← hm2]; exact hL1
  have hsender : msg2.sender = msg.sender := by rw [← hm2]; rfl
  have hdata : ∀ i, msg2.data i = memcpy msg.data (mGetLength msg)
        (poke sS.1._signing_rx_buffer cfgS.SHA204_BUFFER_POS_DATA SIGNING_IDENTIFIER)
        cfgS.SHA204_BUFFER_POS_DATA (signatureSize cfgS (mGetLength msg)) i := by
    intro i; rw [← hm2]
  have hregion : signedRegion msg2 = signedRegion (mSetSigned msg 1) := by
    have hb : bytes msg2.data 0 (mGetLength msg2)
        = bytes (mSetSigned msg 1).data 0 (mGetLength (mSetSigned msg 1)) := by
      rw [hL2, hL1, bytes_eq_iff]
      intro i hi
      rw [hdata, memcpy_apply]
      have : ¬ (mGetLength msg ≤ 0 + i ∧ 0 + i < mGetLength msg + signatureSize cfgS (mGetLength msg)) := by
        omega
      rw [if_neg this]; rfl
    unfold signedRegion
    rw [hb, ← hm2]
  have hchain : ∀ (w' : τ),
      hmacBytes cfgV (signerCalculateSignature cfgV halV
        { stV with _signing_verification_ongoing := false } w' msg2 false).1
      = hmacBytes cfgS (signerCalculateSignature cfgS halS stS wS (mSetSigned msg 1) true).1 := by
    intro w'
    rw [signerCalculateSignature_chain cfgV halV hmac hmacV,
      signerCalculateSignature_chain cfgS halS hmac hmacS]
    unfold specSignature
    rw [hregion]
    congr 1
    exact hnonce.symm
  obtain ⟨sV, hsV, hsVeq⟩ : ∃ sV, expectedHmac cfgV halV
      { stV with _signing_verification_ongoing := false }
      (halV.hwMillis (halV.hwMillis wV).2).2 msg2 = some sV ∧
      hmacBytes cfgV sV.1 = hmacBytes cfgS sS.1 := by
    rcases hsalt with ⟨hd, hwl⟩ | ⟨hd, wl, e, hwl, he, hser⟩
    · have hd' : cfgS.DO_WHITELIST (mSetSigned msg 1).destination = false := hd
      refine ⟨_, by unfold expectedHmac; simp only [hwl]; rfl, ?_⟩
      rw [← hsS]
      unfold signedHmac
      simp only [hd', Bool.false_eq_true, if_false]
      exact hchain _
    · have hd' : cfgS.DO_WHITELIST (mSetSigned msg 1).destination = true := hd
      refine ⟨_, by unfold expectedHmac; simp only [hwl, hsender, he]; rfl, ?_⟩
      rw [← hsS]
      unfold signedHmac
      simp only [hd', if_true]
      rw [saltSignature_hmac cfgV halV sha shaV, saltSignature_hmac cfgS halS sha shaS, hchain,
        hser]
      have hserial := (signerCalculateSignature_sameControl cfgS halS stS wS
        (mSetSigned msg 1) true).2.2.2
      rw [hserial]
      rfl
  apply verifyMsg_accepts_of cfgV halV stV wV msg2 sV hinit hongoing htime
  · rw [hL2, hdata, memcpy_apply]
    have : mGetLength msg ≤ mGetLength msg ∧
        mGetLength msg < mGetLength msg + signatureSize cfgS (mGetLength msg) := by omega
    rw [if_pos this]
    simp [poke_apply]
  · exact hsV
  · intro i hi
    rw [hL2, hnV] at hi
    rw [hL2, hdata, memcpy_apply]
    have : mGetLength msg ≤ mGetLength msg + i ∧
        mGetLength msg + i < mGetLength msg + signatureSize cfgS (mGetLength msg) := by omega
    rw [if_pos this]
    have hi' : mGetLength msg + i - mGetLength msg = i := by omega
    rw [hi']
    exact hmac_identifier_agree _ _ _ _ hsVeq.symm i (by omega)

/-- The amended C1 on the example device with salting on both sides: the nonce issued by the
verifier is stored by the signer, which signs `toyMsg`; the verifier accepts. -/
theorem verify_of_sign_accepts_witness :
    (signerAtsha204VerifyMsg toyCfgSalted toyHal toyNonceRun.2.1 (toyWorld 1200)
      (signerAtsha204SignMsg toyCfgSalted toyHal
        (signerAtsha204PutNonce toyCfgSalted (toyState 0 false) toyNonceRun.2.2.2)
        (toyWorld 1000) toyMsg).2.2.2).1 = true :=
  verify_of_sign_accepts toyCfgSalted toyCfgSalted toyHal toyHal toyMac toySha
    toyHal_hmacIs toyHal_hmacIs toyHal_shaIs toyHal_shaIs
    (signerAtsha204PutNonce toyCfgSalted (toyState 0 false) toyNonceRun.2.2.2) (toyWorld 1000)
    toyNonceRun.2.1 (toyWorld 1200) toyMsg rfl (by decide) (by decide) (by decide) (by decide)
    (by unfold NotTimedOut; decide)
    (Or.inr ⟨rfl, [⟨3, [1, 2, 3, 4, 5, 6, 7, 8, 9]⟩], ⟨3, [1, 2, 3, 4, 5, 6, 7, 8, 9]⟩, rfl, rfl,
      by decide⟩)

/-! ## Hardware failures during verification -/

/-- C8 fails on the code: the device answers while the nonce is issued and then stops
answering (every command reports a failure and leaves the response buffer alone);
`signerAtsha204VerifyMsg` accepts a message whose signature bytes are the identifier
followed by the bytes still in the response buffer. -/
theorem verifyMsg_accepts_on_failed_device :
    toyNonceRun.1 = true ∧
    (∀ (w : ToyWorld) (cmd : Sha204Cmd) (rx : Buf),
      (deadHal.atsha204_execute w cmd rx).1 ≠ toyCfg.SHA204_SUCCESS) ∧
    (signerAtsha204VerifyMsg toyCfg deadHal toyNonceRun.2.1 (toyWorld 1200) toyForgedMsg).1
      = true :=
  ⟨by decide, fun w cmd rx => by simp [deadHal, toyCfg], by decide⟩

/-- The same acceptance when the failing driver zeroes the response buffer: the
accepted signature is the identifier followed by zeros. -/
theorem verifyMsg_accepts_on_zeroing_device :
    (signerAtsha204VerifyMsg toyCfg zeroingHal toyNonceRun.2.1 (toyWorld 1200)
      toyZeroForgedMsg).1 = true := by
  decide

/-! ## Tag failure in `transportReceive` -/

/-- C5 fails on the code: for the example frame the tag check fails and the returned
length is 0, yet the first byte of the caller's buffer, 0 before the call, holds a
decrypted byte after it. -/
theorem transportReceive_leaks_on_bad_tag :
    (transportReceiveCheck toyRadioHal zeroBuf toyBadFrame zeroBuf).map (fun s => s.tagOk)
      = some false ∧
    (transportReceive toyRadioHal zeroBuf toyBadFrame zeroBuf).map (fun x => x.1) = some 0 ∧
    zeroBuf 0 = 0 ∧
    (transportReceive toyRadioHal zeroBuf toyBadFrame zeroBuf).map (fun x => x.2.1 0)
      = some 10 := by
  decide

/-- The caller's buffer after `transportReceive` is the buffer `eax.decrypt` wrote,
whether or not the tag check passes. -/
theorem transportReceive_data (hal : RadioHal ρ) (eaxBuffer : Buf) (r : ρ) (data : Buf) :
    (transportReceive hal eaxBuffer r data).map (fun x => x.2.1)
      = (transportReceiveCheck hal eaxBuffer r data).map (fun s => s.data) := by
  unfold transportReceive
  cases transportReceiveCheck hal eaxBuffer r data with
  | none => rfl
  | some s => cases h : s.tagOk <;> simp [h]

theorem frameInBounds_iff (len : Nat) :
    frameInBounds len = true ↔ 32 ≤ len ∧ len ≤ 64 := by
  unfold frameInBounds decryptLength toSizeT
  simp only [decide_eq_true_eq, IV_SIZE, TAG_SIZE]
  omega

/-- A frame of 32 to 64 bytes whose tag check fails: `transportReceive` returns
length 0 and all 64 bytes of `eaxBuffer` are `0xFF` afterwards. -/
theorem transportReceive_bad_tag_wipes_in_bounds (hal : RadioHal ρ) (eaxBuffer : Buf)
    (r : ρ) (data : Buf) (s : ReceiveStep ρ)
    (hs : transportReceiveCheck hal eaxBuffer r data = some s)
    (hbad : s.tagOk = false) :
    ∃ x, transportReceive hal eaxBuffer r data = some x ∧ x.1 = 0 ∧
      ∀ i, i < 64 → x.2.2.1 i = 255 := by
  refine ⟨(0, s.data, memset s.eaxBuffer 0 255 64, s.world), ?_, rfl, fun i hi => ?_⟩
  · simp [transportReceive, hs, hbad]
  · simp [memset_apply, hi]

/-- The example 48-byte frame with a wrong tag is in bounds and is wiped. -/
theorem transportReceive_bad_tag_wipes_example :
    ∃ x, transportReceive toyRadioHal zeroBuf toyBadFrame zeroBuf = some x ∧ x.1 = 0 ∧
      ∀ i, i < 64 → x.2.2.1 i = 255 := by
  obtain ⟨s, hs⟩ := Option.isSome_iff_exists.mp
    (by decide : (transportReceiveCheck toyRadioHal zeroBuf toyBadFrame zeroBuf).isSome = true)
  have hbad : (transportReceiveCheck toyRadioHal zeroBuf toyBadFrame zeroBuf).map
      (fun s => s.tagOk) = some false := by decide
  rw [hs] at hbad
  exact transportReceive_bad_tag_wipes_in_bounds toyRadioHal zeroBuf toyBadFrame zeroBuf s hs
    (by simpa using hbad)

theorem getNonce_success (cfg : Config) (hal : Hal σ) (st : SigningState) (w : σ)
    (msg : MyMessage) (hinit : st.init_ok = true)
    (hst : randomStatus hal st w = cfg.SHA204_SUCCESS) :
    (signerAtsha204GetNonce cfg hal st w msg).1 = true ∧
    (signerAtsha204GetNonce cfg hal st w msg).2.1._signing_verifying_nonce
      = issuedNonce cfg hal st w ∧
    (signerAtsha204GetNonce cfg hal st w msg).2.2.2
      = MyMessage.set cfg.MAX_PAYLOAD msg (issuedNonce cfg hal st w) (min cfg.MAX_PAYLOAD 32) ∧
    (signerAtsha204GetNonce cfg hal st w msg).2.1._signing_verification_ongoing = true ∧
    (signerAtsha204GetNonce cfg hal st w msg).2.1._signing_timestamp
      = (if ((issueClock cfg hal st w).1 + cfg.MY_VERIFICATION_TIMEOUT_MS) % ULONG_MOD
            < (issueClock cfg hal st w).2 then 0 else (issueClock cfg hal st w).1) := by
  unfold randomStatus at hst
  unfold signerAtsha204GetNonce issuedNonce issueClock nonceDigest
  simp only [hinit, hst, Bool.not_true, Bool.false_eq_true, if_false, ne_eq, not_true_eq_false]
  by_cases hm : cfg.MAX_PAYLOAD < 32
  · simp only [hm, if_true]
    refine ⟨?_, ?_, ?_, ?_, ?_⟩ <;> trivial
  · simp only [hm, if_false]
    refine ⟨?_, ?_, ?_, ?_, ?_⟩ <;> trivial

theorem getNonce_failure (cfg : Config) (hal : Hal σ) (st : SigningState) (w : σ)
    (msg : MyMessage) (h : st.init_ok = false ∨ randomStatus hal st w ≠ cfg.SHA204_SUCCESS) :
    (signerAtsha204GetNonce cfg hal st w msg).1 = false ∧
    (signerAtsha204GetNonce cfg hal st w msg).2.1._signing_verifying_nonce
      = st._signing_verifying_nonce ∧
    (signerAtsha204GetNonce cfg hal st w msg).2.1._signing_timestamp = st._signing_timestamp ∧
    (signerAtsha204GetNonce cfg hal st w msg).2.1._signing_verification_ongoing
      = st._signing_verification_ongoing := by
  unfold signerAtsha204GetNonce
  by_cases hinit : st.init_ok = true
  · have hst : randomStatus hal st w ≠ cfg.SHA204_SUCCESS := by
      rcases h with h | h
      · rw [hinit] at h; exact absurd h (by decide)
      · exact h
    unfold randomStatus at hst
    simp only [hinit, Bool.not_true, Bool.false_eq_true, if_false, ne_eq, hst, not_false_eq_true,
      if_true]
    refine ⟨?_, ?_, ?_, ?_⟩ <;> trivial
  · have hinit' : st.init_ok = false := by simpa using hinit
    simp [hinit']

theorem getNonce_true_status (cfg : Config) (hal : Hal σ) (st : SigningState) (w : σ)
    (msg : MyMessage) (hok : (signerAtsha204GetNonce cfg hal st w msg).1 = true) :
    st.init_ok = true ∧ randomStatus hal st w = cfg.SHA204_SUCCESS := by
  constructor
  · by_contra h
    have h' : st.init_ok = false := by simpa using h
    rw [(getNonce_failure cfg hal st w msg (Or.inl h')).1] at hok
    exact absurd hok (by decide)
  · by_contra h
    rw [(getNonce_failure cfg hal st w msg (Or.inr h)).1] at hok
    exact absurd hok (by decide)

theorem issuedNonce_tail (cfg : Config) (hal : Hal σ) (st : SigningState) (w : σ)
    (hm : cfg.MAX_PAYLOAD < 32) (i : Nat) (h1 : cfg.MAX_PAYLOAD ≤ i) (h2 : i < 32) :
    issuedNonce cfg hal st w i = 170 := by
  unfold issuedNonce
  simp only [hm, if_true, memset_apply]
  rw [if_pos ⟨h1, by omega⟩]

theorem set_data (maxPayload : Nat) (msg : MyMessage) (value : Buf) (length i : Nat)
    (hi : i < min length maxPayload) :
    (MyMessage.set maxPayload msg value length).data i = value i := by
  simp only [MyMessage.set, memcpy_apply]
  rw [if_pos ⟨Nat.zero_le _, by omega⟩]
  simp

theorem putNonce_nonce (cfg : Config) (st : SigningState) (msg : MyMessage)
    (hinit : st.init_ok = true) (i : Nat) (hi : i < 32) :
    (signerAtsha204PutNonce cfg st msg)._signing_signing_nonce i
      = if i < cfg.MAX_PAYLOAD then msg.data i else 170 := by
  unfold signerAtsha204PutNonce
  simp only [hinit, Bool.not_true, Bool.false_eq_true, if_false, MyMessage.getCustom]
  by_cases hm : cfg.MAX_PAYLOAD < 32
  · simp only [hm, if_true, memset_apply, memcpy_apply]
    by_cases hlt : i < cfg.MAX_PAYLOAD
    · have h1 : ¬ (cfg.MAX_PAYLOAD ≤ i ∧ i < cfg.MAX_PAYLOAD + (32 - cfg.MAX_PAYLOAD)) := by omega
      have h2 : 0 ≤ i ∧ i < 0 + min cfg.MAX_PAYLOAD 32 := by omega
      rw [if_neg h1, if_pos h2, if_pos hlt]
      simp
    · have h1 : cfg.MAX_PAYLOAD ≤ i ∧ i < cfg.MAX_PAYLOAD + (32 - cfg.MAX_PAYLOAD) := by omega
      rw [if_pos h1, if_neg hlt]
  · have hlt : i < cfg.MAX_PAYLOAD := by omega
    have h2 : 0 ≤ i ∧ i < 0 + min cfg.MAX_PAYLOAD 32 := by omega
    simp only [hm, if_false, memcpy_apply, h2, hlt, if_true]
    simp

/-- C13: when `signerAtsha204GetNonce` succeeds on an initialised verifier and an
initialised signer built with the same `MAX_PAYLOAD` runs `signerAtsha204PutNonce` on
the nonce message, the signing nonce equals the verifying nonce on all 32 bytes;
the bytes below `min(MAX_PAYLOAD, 32)` are the bytes carried in the message, and when
`MAX_PAYLOAD < 32` the bytes from `MAX_PAYLOAD` to 31 are `0xAA` on both sides. -/
theorem putNonce_agrees_with_getNonce (cfgV cfgS : Config) (hal : Hal σ)
    (stV : SigningState) (w : σ) (msg : MyMessage) (stS : SigningState)
    (hmax : cfgS.MAX_PAYLOAD = cfgV.MAX_PAYLOAD)
    (hV : stV.init_ok = true) (hS : stS.init_ok = true)
    (hok : (signerAtsha204GetNonce cfgV hal stV w msg).1 = true) :
    (∀ i, i < 32 →
      (signerAtsha204PutNonce cfgS stS
        (signerAtsha204GetNonce cfgV hal stV w msg).2.2.2)._signing_signing_nonce i
      = (signerAtsha204GetNonce cfgV hal stV w msg).2.1._signing_verifying_nonce i) ∧
    (∀ i, i < min cfgV.MAX_PAYLOAD 32 →
      (signerAtsha204GetNonce cfgV hal stV w msg).2.1._signing_verifying_nonce i
      = (signerAtsha204GetNonce cfgV hal stV w msg).2.2.2.getCustom i) ∧
    (cfgV.MAX_PAYLOAD < 32 → ∀ i, cfgV.MAX_PAYLOAD ≤ i → i < 32 →
      (signerAtsha204GetNonce cfgV hal stV w msg).2.1._signing_verifying_nonce i = 170 ∧
      (signerAtsha204PutNonce cfgS stS
        (signerAtsha204GetNonce cfgV hal stV w msg).2.2.2)._signing_signing_nonce i = 170) := by
  obtain ⟨_, hst⟩ := getNonce_true_status cfgV hal stV w msg hok
  obtain ⟨_, hn, hm, _, _⟩ := getNonce_success cfgV hal stV w msg hV hst
  have hcarried : ∀ i, i < min cfgV.MAX_PAYLOAD 32 →
      (signerAtsha204GetNonce cfgV hal stV w msg).2.2.2.data i = issuedNonce cfgV hal stV w i := by
    intro i hi
    rw [hm]
    exact set_data _ _ _ _ _ (by omega)
  refine ⟨?_, ?_, ?_⟩
  · intro i hi
    rw [putNonce_nonce cfgS stS _ hS i hi, hn, hmax]
    by_cases hlt : i < cfgV.MAX_PAYLOAD
    · rw [if_pos hlt, hcarried i (by omega)]
    · rw [if_neg hlt, issuedNonce_tail cfgV hal stV w (by omega) i (by omega) hi]
  · intro i hi
    rw [hn]
    exact (hcarried i hi).symm
  · intro hlt i h1 h2
    rw [putNonce_nonce cfgS stS _ hS i h2, hn, hmax, if_neg (by omega)]
    exact ⟨issuedNonce_tail cfgV hal stV w hlt i h1 h2, rfl⟩

/-- C13 on the example device (`MAX_PAYLOAD = 25`): the nonce issued at clock 1000 and
stored by the example signer. -/
theorem putNonce_agrees_with_getNonce_witness :
    (∀ i, i < 32 →
      (signerAtsha204PutNonce toyCfg (toyState 0 false)
        toyNonceRun.2.2.2)._signing_signing_nonce i
      = toyNonceRun.2.1._signing_verifying_nonce i) ∧
    (toyNonceRun.2.1._signing_verifying_nonce 31 = 170) :=
  have h := putNonce_agrees_with_getNonce toyCfg toyCfg toyHal (toyState 0 false)
    (toyWorld 1000) toyMsg (toyState 0 false) rfl rfl rfl (by decide)
  ⟨h.1, (h.2.2 (by decide) 31 (by decide) (by decide)).1⟩

theorem issuedNonce_apply (cfg : Config) (hal : Hal σ) (st : SigningState) (w : σ) (i : Nat)
    (hi : i < 32) :
    issuedNonce cfg hal st w i
      = if i < cfg.MAX_PAYLOAD then
          (nonceDigest cfg hal st w).1._signing_rx_buffer (cfg.SHA204_BUFFER_POS_DATA + i)
        else 170 := by
  by_cases hlt : i < cfg.MAX_PAYLOAD
  · rw [if_pos hlt]
    unfold issuedNonce
    have h2 : 0 ≤ i ∧ i < 0 + min cfg.MAX_PAYLOAD 32 := by omega
    by_cases hm : cfg.MAX_PAYLOAD < 32
    · have h1 : ¬ (cfg.MAX_PAYLOAD ≤ i ∧ i < cfg.MAX_PAYLOAD + (32 - cfg.MAX_PAYLOAD)) := by omega
      simp only [hm, if_true, memset_apply, memcpy_apply]
      rw [if_neg h1, if_pos h2]
      simp
    · simp only [hm, if_false, memcpy_apply]
      rw [if_pos h2]
      simp
  · rw [if_neg hlt]
    exact issuedNonce_tail cfg hal st w (by omega) i (by omega) hi

/-- C12, as stated, fails: the example verifier has a verification ongoing since clock
1000 that is not timed out at clock 1200, and `signerAtsha204GetNonce` at 1200
returns true, moves the timestamp to 1200 and changes the stored nonce. -/
theorem getNonce_while_ongoing_counterexample :
    toyNonceRun.2.1.init_ok = true ∧
    toyNonceRun.2.1._signing_verification_ongoing = true ∧
    toyNonceRun.2.1._signing_timestamp = 1000 ∧
    (signerAtsha204CheckTimer toyCfg toyHal toyNonceRun.2.1 (toyWorld 1200)).1 = true ∧
    (signerAtsha204GetNonce toyCfg toyHal toyNonceRun.2.1 (toyWorld 1200) toyMsg).1 = true ∧
    (signerAtsha204GetNonce toyCfg toyHal toyNonceRun.2.1 (toyWorld 1200)
      toyMsg).2.1._signing_timestamp = 1200 ∧
    (signerAtsha204GetNonce toyCfg toyHal toyNonceRun.2.1 (toyWorld 1200)
      toyMsg).2.1._signing_verifying_nonce 0 ≠ toyNonceRun.2.1._signing_verifying_nonce 0 := by
  decide

/-- C12 (amended): `signerAtsha204GetNonce` does not look at verification-ongoing. On
every initialised backend, if the RANDOM command succeeds it returns true, leaves
verification-ongoing set, overwrites the 32 bytes of the verifying nonce with the
new nonce (digest bytes below `MAX_PAYLOAD`, `0xAA` above) and sets the timestamp to
the clock reading (0 when the reading plus the timeout wraps); if the RANDOM
command fails it returns false and leaves the verifying nonce, the timestamp and
verification-ongoing as they were. -/
theorem getNonce_replaces_challenge (cfg : Config) (hal : Hal σ) (st : SigningState) (w : σ)
    (msg : MyMessage) (hinit : st.init_ok = true) :
    (randomStatus hal st w = cfg.SHA204_SUCCESS →
      (signerAtsha204GetNonce cfg hal st w msg).1 = true ∧
      (signerAtsha204GetNonce cfg hal st w msg).2.1._signing_verification_ongoing = true ∧
      (∀ i, i < 32 →
        (signerAtsha204GetNonce cfg hal st w msg).2.1._signing_verifying_nonce i
          = if i < cfg.MAX_PAYLOAD then
              (nonceDigest cfg hal st w).1._signing_rx_buffer (cfg.SHA204_BUFFER_POS_DATA + i)
            else 170) ∧
      (signerAtsha204GetNonce cfg hal st w msg).2.1._signing_timestamp
        = (if ((issueClock cfg hal st w).1 + cfg.MY_VERIFICATION_TIMEOUT_MS) % 2 ^ 32
              < (issueClock cfg hal st w).2 then 0 else (issueClock cfg hal st w).1)) ∧
    (randomStatus hal st w ≠ cfg.SHA204_SUCCESS →
      (signerAtsha204GetNonce cfg hal st w msg).1 = false ∧
      (signerAtsha204GetNonce cfg hal st w msg).2.1._signing_verifying_nonce
        = st._signing_verifying_nonce ∧
      (signerAtsha204GetNonce cfg hal st w msg).2.1._signing_timestamp
        = st._signing_timestamp ∧
      (signerAtsha204GetNonce cfg hal st w msg).2.1._signing_verification_ongoing
        = st._signing_verification_ongoing) := by
  constructor
  · intro hst
    obtain ⟨h1, h2, _, h4, h5⟩ := getNonce_success cfg hal st w msg hinit hst
    refine ⟨h1, h4, ?_, h5⟩
    intro i hi
    rw [h2]
    exact issuedNonce_apply cfg hal st w i hi
  · intro hst
    exact getNonce_failure cfg hal st w msg (Or.inr hst)

/-- The amended C12 on the example device: a second request at clock 1200, while the
verification issued at 1000 is ongoing, succeeds and restarts the window. -/
theorem getNonce_replaces_challenge_witness :
    (signerAtsha204GetNonce toyCfg toyHal toyNonceRun.2.1 (toyWorld 1200) toyMsg).1 = true ∧
    (signerAtsha204GetNonce toyCfg toyHal toyNonceRun.2.1 (toyWorld 1200)
      toyMsg).2.1._signing_verification_ongoing = true :=
  have h := (getNonce_replaces_challenge toyCfg toyHal toyNonceRun.2.1 (toyWorld 1200) toyMsg
    (by decide)).1 (by decide)
  ⟨h.1, h.2.1⟩

/-! ## What is left in the nonce buffers -/

theorem signaturePass_purges (hal : Hal σ) (msg : MyMessage) (signing : Bool) (m : Nat)
    (pos : Int) (st : SigningState) (w : σ) (i : Nat) (hi : i < 32) :
    nonceBuf (signaturePass hal msg signing m pos st w).1 signing i = 170 := by
  unfold signaturePass
  simp only [nonceBuf_setNonceBuf, memset_apply]
  rw [if_pos ⟨Nat.zero_le _, by omega⟩]

theorem signerCalculateSignatureLoop_purges (cfg : Config) (hal : Hal σ) (msg : MyMessage)
    (signing : Bool) (fuel : Nat) :
    ∀ (bytes_left : Nat) (pos : Int) (st : SigningState) (w : σ),
      0 < bytes_left → bytes_left ≤ fuel → ∀ i, i < 32 →
      nonceBuf (signerCalculateSignatureLoop cfg hal msg signing fuel bytes_left pos st w).1
        signing i = 170 := by
  induction fuel with
  | zero => intro bl _ _ _ h1 h2; omega
  | succ n ih =>
    intro bl pos st w hpos hfuel i hi
    have h0 : bl ≠ 0 := by omega
    unfold signerCalculateSignatureLoop
    simp only [h0, if_false]
    by_cases hmore : bl - min bl 32 > 0
    · simp only [hmore, if_true]
      exact ih _ _ _ _ hmore (by omega) i hi
    · have hz : bl - min bl 32 = 0 := by omega
      simp only [hmore, if_false]
      rw [hz, signerCalculateSignatureLoop_zero]
      exact signaturePass_purges hal msg signing _ pos st w i hi

theorem signerCalculateSignature_purges (cfg : Config) (hal : Hal σ) (st : SigningState)
    (w : σ) (msg : MyMessage) (signing : Bool) (i : Nat) (hi : i < 32) :
    nonceBuf (signerCalculateSignature cfg hal st w msg signing).1 signing i = 170 := by
  unfold signerCalculateSignature
  exact signerCalculateSignatureLoop_purges cfg hal msg signing _ _ _ st w
    (by simp [HEADER_SIZE]) (le_refl _) i hi

theorem saltSignature_nonce (cfg : Config) (hal : Hal σ) (st : SigningState) (w : σ)
    (signing : Bool) (sender : Nat) (serial : Buf) :
    bytes (nonceBuf (saltSignature cfg hal st w signing sender serial).1 signing) 0 32
      = hmacBytes cfg st ∧
    nonceBuf (saltSignature cfg hal st w signing sender serial).1 signing 32 = sender ∧
    bytes (nonceBuf (saltSignature cfg hal st w signing sender serial).1 signing) 33 9
      = bytes serial 0 9 := by
  have hn : nonceBuf (saltSignature cfg hal st w signing sender serial).1 signing
      = memcpy (poke (memcpy (nonceBuf st signing) 0 st._signing_rx_buffer
          cfg.SHA204_BUFFER_POS_DATA 32) 32 sender) 33 serial 0 9 := by
    unfold saltSignature
    cases signing <;> rfl
  rw [hn]
  refine ⟨?_, ?_, ?_⟩
  · rw [hmacBytes, bytes_eq_iff]
    intro i hi
    have h1 : ¬ (33 ≤ 0 + i ∧ 0 + i < 33 + 9) := by omega
    have h2 : ¬ (0 + i = 32) := by omega
    have h3 : 0 ≤ 0 + i ∧ 0 + i < 0 + 32 := by omega
    simp only [memcpy_apply, poke_apply]
    rw [if_neg h1, if_neg h2, if_pos h3]
    simp
  · simp [memcpy_apply, poke_apply]
  · rw [bytes_eq_iff]
    intro i hi
    have h1 : 33 ≤ 33 + i ∧ 33 + i < 33 + 9 := by omega
    simp only [memcpy_apply]
    rw [if_pos h1]
    simp

theorem signerAtsha204CheckTimer_true_state (cfg : Config) (hal : Hal σ) (st : SigningState)
    (w : σ) (h : (signerAtsha204CheckTimer cfg hal st w).1 = true) :
    (signerAtsha204CheckTimer cfg hal st w).2.1 = st := by
  unfold signerAtsha204CheckTimer at h ⊢
  by_cases hi : st.init_ok = true
  · by_cases ho : st._signing_verification_ongoing = true
    · by_cases h1 : (hal.hwMillis w).1 < st._signing_timestamp
      · simp [hi, ho, h1] at h
      · by_cases h2 : (hal.hwMillis (hal.hwMillis w).2).1
            > (st._signing_timestamp + cfg.MY_VERIFICATION_TIMEOUT_MS) % ULONG_MOD
        · simp [hi, ho, h1, h2] at h
        · simp [hi, ho, h1, h2]
    · simp [hi, ho]
  · simp [hi]

theorem signerAtsha204CheckTimer_false_state (cfg : Config) (hal : Hal σ) (st : SigningState)
    (w : σ) (hinit : st.init_ok = true)
    (h : (signerAtsha204CheckTimer cfg hal st w).1 = false) :
    (signerAtsha204CheckTimer cfg hal st w).2.1 = purgeNonces st := by
  unfold signerAtsha204CheckTimer at h ⊢
  by_cases ho : st._signing_verification_ongoing = true
  · by_cases h1 : (hal.hwMillis w).1 < st._signing_timestamp
    · simp [hinit, ho, h1]
    · by_cases h2 : (hal.hwMillis (hal.hwMillis w).2).1
          > (st._signing_timestamp + cfg.MY_VERIFICATION_TIMEOUT_MS) % ULONG_MOD
      · simp [hinit, ho, h1, h2]
      · simp [hinit, ho, h1, h2] at h
  · simp [hinit, ho] at h

theorem signMsg_signing_nonce (cfg : Config) (hal : Hal σ) (st : SigningState) (w : σ)
    (msg : MyMessage) (h : (mGetLength msg : Int) ≤ (cfg.MAX_PAYLOAD : Int) - 2) :
    (signerAtsha204SignMsg cfg hal st w msg).2.1._signing_signing_nonce
      = nonceBuf (signedHmac cfg hal st w (mSetSigned msg 1)).1 true := by
  unfold signerAtsha204SignMsg signedHmac
  rw [if_neg (not_lt.mpr h)]
  rfl

theorem verifyMsg_timeout (cfg : Config) (hal : Hal σ) (st : SigningState) (w : σ)
    (msg : MyMessage) (hongoing : st._signing_verification_ongoing = true)
    (hinit : st.init_ok = true) (ht : (signerCheckTimer cfg hal st w).1 = false) :
    (signerAtsha204VerifyMsg cfg hal st w msg).1 = false ∧
    (signerAtsha204VerifyMsg cfg hal st w msg).2.1 = purgeNonces st := by
  have hs := signerAtsha204CheckTimer_false_state cfg hal st w hinit ht
  unfold signerAtsha204VerifyMsg
  simp only [hongoing, ht, Bool.not_true, Bool.not_false, Bool.false_eq_true, if_false, if_true]
  exact ⟨trivial, hs⟩

theorem verifyMsg_verifying_nonce (cfg : Config) (hal : Hal σ) (st : SigningState) (w : σ)
    (msg : MyMessage) (s : SigningState × σ)
    (hongoing : st._signing_verification_ongoing = true)
    (ht : (signerCheckTimer cfg hal st w).1 = true)
    (hid : msgByte msg (mGetLength msg) = SIGNING_IDENTIFIER)
    (hs : expectedHmac cfg hal { st with _signing_verification_ongoing := false }
      (signerCheckTimer cfg hal st w).2.2 msg = some s) :
    (signerAtsha204VerifyMsg cfg hal st w msg).2.1._signing_verifying_nonce
      = nonceBuf s.1 false := by
  have hst : (signerCheckTimer cfg hal st w).2.1 = st :=
    signerAtsha204CheckTimer_true_state cfg hal st w ht
  unfold signerAtsha204VerifyMsg
  simp only [hongoing, ht, hid, hst, Bool.not_true, Bool.false_eq_true, if_false, ne_eq,
    not_true_eq_false]
  unfold expectedHmac at hs
  cases hw : cfg.MY_SIGNING_NODE_WHITELISTING with
  | none =>
    simp only [hw, Option.some.injEq] at hs
    subst hs
    simp only []
    split <;> rfl
  | some wl =>
    simp only [hw] at hs
    cases he : findWhitelistEntry wl msg.sender with
    | none => simp [he] at hs
    | some e =>
      simp only [he, Option.some.injEq] at hs
      subst hs
      by_cases hc : signerMemcmp msg.data (mGetLength msg)
          (poke (saltSignature cfg hal
            (signerCalculateSignature cfg hal { st with _signing_verification_ongoing := false }
              (signerCheckTimer cfg hal st w).2.2 msg false).1
            (signerCalculateSignature cfg hal { st with _signing_verification_ongoing := false }
              (signerCheckTimer cfg hal st w).2.2 msg false).2
            false msg.sender (ofList e.serial)).1._signing_rx_buffer
            cfg.SHA204_BUFFER_POS_DATA SIGNING_IDENTIFIER)
          cfg.SHA204_BUFFER_POS_DATA (signatureSize cfg (mGetLength msg)) = 0
      · simp only [he, hc, not_true_eq_false, if_false]; rfl
      · simp only [he, hc, not_false_eq_true, if_true]; rfl

theorem verifyMsg_whitelist_miss (cfg : Config) (hal : Hal σ) (st : SigningState) (w : σ)
    (msg : MyMessage) (wl : List whitelist_entry_t)
    (hongoing : st._signing_verification_ongoing = true)
    (ht : (signerCheckTimer cfg hal st w).1 = true)
    (hid : msgByte msg (mGetLength msg) = SIGNING_IDENTIFIER)
    (hw : cfg.MY_SIGNING_NODE_WHITELISTING = some wl)
    (he : findWhitelistEntry wl msg.sender = none) :
    (signerAtsha204VerifyMsg cfg hal st w msg).1 = false ∧
    (signerAtsha204VerifyMsg cfg hal st w msg).2.1._signing_verifying_nonce
      = nonceBuf (signerCalculateSignature cfg hal
          { st with _signing_verification_ongoing := false }
          (signerCheckTimer cfg hal st w).2.2 msg false).1 false := by
  have hst : (signerCheckTimer cfg hal st w).2.1 = st :=
    signerAtsha204CheckTimer_true_state cfg hal st w ht
  unfold signerAtsha204VerifyMsg
  simp only [hongoing, ht, hid, hst, hw, he, Bool.not_true, Bool.false_eq_true, if_false, ne_eq,
    not_true_eq_false]
  exact ⟨trivial, rfl⟩

/-- C11, as stated, fails on two exits. Signing `toyMsg` with salting returns true and
leaves the first byte of the signing nonce different from `0xAA`. Verifying the
unsigned `toyMsg` while a verification is ongoing and inside its window leaves at
the identifier test with false, and the first byte of the verifying nonce is
still the nonce byte, not `0xAA`. -/
theorem nonce_not_purged_counterexample :
    ((signerAtsha204SignMsg toyCfgSalted toyHal (toyState 0 false) (toyWorld 1000) toyMsg).1
        = true ∧
      (signerAtsha204SignMsg toyCfgSalted toyHal (toyState 0 false) (toyWorld 1000)
        toyMsg).2.1._signing_signing_nonce 0 ≠ 170) ∧
    (toyNonceRun.2.1._signing_verification_ongoing = true ∧
      (signerCheckTimer toyCfg toyHal toyNonceRun.2.1 (toyWorld 1200)).1 = true ∧
      msgByte toyMsg (mGetLength toyMsg) ≠ SIGNING_IDENTIFIER ∧
      (signerAtsha204VerifyMsg toyCfg toyHal toyNonceRun.2.1 (toyWorld 1200) toyMsg).1 = false ∧
      (signerAtsha204VerifyMsg toyCfg toyHal toyNonceRun.2.1 (toyWorld 1200)
        toyMsg).2.1._signing_verifying_nonce 0
        = toyNonceRun.2.1._signing_verifying_nonce 0 ∧
      toyNonceRun.2.1._signing_verifying_nonce 0 ≠ 170) := by
  decide

/-- C11 (amended): the exits of `signerAtsha204SignMsg` and `signerAtsha204VerifyMsg`
that follow an unsalted signature computation (sign without `DO_WHITELIST`; verify
in a build without whitelist; verify with a whitelist miss) and the timeout exit of
verify on an initialised backend leave the 32 bytes of the nonce buffer the
operation used equal to `0xAA`. When the signature is salted (sign with
`DO_WHITELIST`, verify with a whitelist hit) the nonce buffer is reused: its bytes
0 to 31 hold the unsalted HMAC, byte 32 the sender id and bytes 33 to 41 the
serial. -/
theorem nonce_buffer_after_sign_and_verify (cfg : Config) (hal : Hal σ) (st : SigningState)
    (w : σ) (msg : MyMessage) :
    ((mGetLength msg : Int) ≤ (cfg.MAX_PAYLOAD : Int) - 2 →
      (cfg.DO_WHITELIST msg.destination = false →
        ∀ i, i < 32 →
          (signerAtsha204SignMsg cfg hal st w msg).2.1._signing_signing_nonce i = 170) ∧
      (cfg.DO_WHITELIST msg.destination = true →
        bytes (signerAtsha204SignMsg cfg hal st w msg).2.1._signing_signing_nonce 0 32
          = hmacBytes cfg (signerCalculateSignature cfg hal st w (mSetSigned msg 1) true).1 ∧
        (signerAtsha204SignMsg cfg hal st w msg).2.1._signing_signing_nonce 32 = msg.sender ∧
        bytes (signerAtsha204SignMsg cfg hal st w msg).2.1._signing_signing_nonce 33 9
          = bytes st._signing_node_serial_info 0 9)) ∧
    (st._signing_verification_ongoing = true →
      (st.init_ok = true → (signerCheckTimer cfg hal st w).1 = false →
        (signerAtsha204VerifyMsg cfg hal st w msg).1 = false ∧
        ∀ i, i < 32 →
          (signerAtsha204VerifyMsg cfg hal st w msg).2.1._signing_verifying_nonce i = 170) ∧
      ((signerCheckTimer cfg hal st w).1 = true →
        msgByte msg (mGetLength msg) = SIGNING_IDENTIFIER →
        (cfg.MY_SIGNING_NODE_WHITELISTING = none →
          ∀ i, i < 32 →
            (signerAtsha204VerifyMsg cfg hal st w msg).2.1._signing_verifying_nonce i = 170) ∧
        (∀ wl, cfg.MY_SIGNING_NODE_WHITELISTING = some wl →
          findWhitelistEntry wl msg.sender = none →
          (signerAtsha204VerifyMsg cfg hal st w msg).1 = false ∧
          ∀ i, i < 32 →
            (signerAtsha204VerifyMsg cfg hal st w msg).2.1._signing_verifying_nonce i = 170) ∧
        (∀ wl e, cfg.MY_SIGNING_NODE_WHITELISTING = some wl →
          findWhitelistEntry wl msg.sender = some e →
          bytes (signerAtsha204VerifyMsg cfg hal st w msg).2.1._signing_verifying_nonce 0 32
            = hmacBytes cfg (signerCalculateSignature cfg hal
                { st with _signing_verification_ongoing := false }
                (signerCheckTimer cfg hal st w).2.2 msg false).1 ∧
          (signerAtsha204VerifyMsg cfg hal st w msg).2.1._signing_verifying_nonce 32
            = msg.sender ∧
          bytes (signerAtsha204VerifyMsg cfg hal st w msg).2.1._signing_verifying_nonce 33 9
            = bytes (ofList e.serial) 0 9))) := by
  constructor
  · intro hfit
    rw [signMsg_signing_nonce cfg hal st w msg hfit]
    have hdest : (mSetSigned msg 1).destination = msg.destination := rfl
    constructor
    · intro hd i hi
      unfold signedHmac
      simp only [hdest, hd, Bool.false_eq_true, if_false]
      exact signerCalculateSignature_purges cfg hal st w _ true i hi
    · intro hd
      unfold signedHmac
      simp only [hdest, hd, if_true]
      have hserial := (signerCalculateSignature_sameControl cfg hal st w
        (mSetSigned msg 1) true).2.2.2
      have h := saltSignature_nonce cfg hal
        (signerCalculateSignature cfg hal st w (mSetSigned msg 1) true).1
        (signerCalculateSignature cfg hal st w (mSetSigned msg 1) true).2 true
        (mSetSigned msg 1).sender
        (signerCalculateSignature cfg hal st w (mSetSigned msg 1)
          true).1._signing_node_serial_info
      refine ⟨h.1, h.2.1, ?_⟩
      rw [h.2.2, hserial]
  · intro hongoing
    constructor
    · intro hinit ht
      obtain ⟨h1, h2⟩ := verifyMsg_timeout cfg hal st w msg hongoing hinit ht
      refine ⟨h1, fun i hi => ?_⟩
      rw [h2]
      exact (purgeNonces_spec st).1 i hi
    · intro ht hid
      refine ⟨?_, ?_, ?_⟩
      · intro hw i hi
        rw [verifyMsg_verifying_nonce cfg hal st w msg _ hongoing ht hid
          (by unfold expectedHmac; simp only [hw]; rfl)]
        exact signerCalculateSignature_purges cfg hal _ _ msg false i hi
      · intro wl hw he
        obtain ⟨h1, h2⟩ := verifyMsg_whitelist_miss cfg hal st w msg wl hongoing ht hid hw he
        refine ⟨h1, fun i hi => ?_⟩
        rw [h2]
        exact signerCalculateSignature_purges cfg hal _ _ msg false i hi
      · intro wl e hw he
        rw [verifyMsg_verifying_nonce cfg hal st w msg _ hongoing ht hid
          (by unfold expectedHmac; simp only [hw, he]; rfl)]
        exact saltSignature_nonce cfg hal _ _ false msg.sender (ofList e.serial)

/-- The amended C11 on the example device: signing `toyMsg` without salting leaves the
signing nonce purged, and the accepted verification of the signed message leaves
the verifying nonce purged. -/
theorem nonce_buffer_after_sign_and_verify_witness :
    (∀ i, i < 32 →
      (signerAtsha204SignMsg toyCfg toyHal (toyState 0 false) (toyWorld 1000)
        toyMsg).2.1._signing_signing_nonce i = 170) ∧
    (∀ i, i < 32 →
      (signerAtsha204VerifyMsg toyCfg toyHal toyNonceRun.2.1 (toyWorld 1200)
        toySignedMsg).2.1._signing_verifying_nonce i = 170) :=
  ⟨((nonce_buffer_after_sign_and_verify toyCfg toyHal (toyState 0 false) (toyWorld 1000)
      toyMsg).1 (by decide)).1 rfl,
    (((nonce_buffer_after_sign_and_verify toyCfg toyHal toyNonceRun.2.1 (toyWorld 1200)
      toySignedMsg).2 (by decide)).2 (by decide) (by decide)).1 rfl⟩

end MySensors
